import Mathlib

/-!
Verification development for the iExplain repository.

This file gives a shallow embedding, in Lean 4, of the parts of the
repository that the checked properties talk about:

* `src/mains.py` (`MinimalExplainer`): heuristic log-evidence analysis
  (`analyze_logs`, `determine_outcome`, the VM threshold-violation rate).
* `src/tools/parse_tmf_intent.py`: the line-oriented TMF/Turtle intent parser.
* `src/explainer.py` (`iExplain._extract_explanation_from_result` and
  `_save_explanation_to_file`) together with `src/utils.py`
  (`parse_escaped_json`): output normalization.
* `src/workflows/*.py`: the three workflow strategies and their agent
  validation.

Python strings are modelled as Lean `String` / `List Char`; Python floats are
modelled as exact rationals (`ℚ`); Python dicts with string keys are modelled
as insertion-ordered association lists; Python exceptions are modelled with
`Except` / `Option`.
-/

namespace IExplain

/-! ## Python string helpers -/

/-- The character class matched by Python's `str.strip()` and by `\s` in
`re` patterns (ASCII subset: space, tab, newline, carriage return, vertical
tab, form feed). -/
def pySpace (c : Char) : Bool :=
  c = ' ' || c = '\t' || c = '\n' || c = '\r' || c = '\x0b' || c = '\x0c'

/-- Remove leading `pySpace` characters. -/
def stripLeft : List Char → List Char
  | [] => []
  | c :: cs => if pySpace c then stripLeft cs else c :: cs

/-- Model of Python `str.strip()`: remove leading and trailing whitespace. -/
def pyStrip (l : List Char) : List Char :=
  ((stripLeft ((stripLeft l.reverse)).reverse))

/-- Model of the Python `in` operator on strings (substring containment). -/
def containsSub (pat : List Char) : List Char → Bool
  | [] => pat.isEmpty
  | c :: cs => pat.isPrefixOf (c :: cs) || containsSub pat cs

/-- Model of Python `str.split(sep)` for a non-empty separator: leftmost,
non-overlapping splits. `acc` holds the (reversed) current segment.  The
`fuel` argument (any value `≥` the length of the scanned list works) makes the
recursion structural so that the kernel can evaluate concrete instances. -/
def pySplitAux (sep : List Char) : Nat → List Char → List Char → List (List Char)
  | _, acc, [] => [acc.reverse]
  | 0, acc, rest => [acc.reverse ++ rest]
  | fuel + 1, acc, c :: cs =>
    if sep.isPrefixOf (c :: cs) then
      acc.reverse :: pySplitAux sep fuel [] (List.drop (sep.length - 1) cs)
    else
      pySplitAux sep fuel (c :: acc) cs

/-- Model of Python `str.split(sep)` (non-empty separator). -/
def pySplitOn (sep l : List Char) : List (List Char) := pySplitAux sep l.length [] l

/-! ## Python numbers -/

/-- Numeric value of a list of decimal digit characters. -/
def digitsVal (l : List Char) : Nat :=
  l.foldl (fun n c => n * 10 + (c.toNat - '0'.toNat)) 0

/-- Model of Python `float(s)` on plain decimal literals: optional sign,
integer part, optional fractional part, optional exponent, with surrounding
whitespace stripped.  Infinities, NaN and underscore digit separators are not
modelled (no analysed log line or test input uses them); the result is the
exact rational value of the literal. -/
def pyFloat? (l : List Char) : Option ℚ :=
  let l := pyStrip l
  let (sign, l) :=
    match l with
    | '-' :: rest => ((-1 : ℚ), rest)
    | '+' :: rest => ((1 : ℚ), rest)
    | _ => ((1 : ℚ), l)
  let intDigits := l.takeWhile Char.isDigit
  let l := l.drop intDigits.length
  let (fracDigits, l) :=
    match l with
    | '.' :: rest => (rest.takeWhile Char.isDigit, rest.drop (rest.takeWhile Char.isDigit).length)
    | _ => ([], l)
  if intDigits.isEmpty && fracDigits.isEmpty then none
  else
    let mantissa : ℚ :=
      (digitsVal intDigits : ℚ) + (digitsVal fracDigits : ℚ) / ((10 : ℚ) ^ fracDigits.length)
    match l with
    | [] => some (sign * mantissa)
    | e :: rest =>
      if e = 'e' || e = 'E' then
        let (esign, rest) :=
          match rest with
          | '-' :: r => ((-1 : ℤ), r)
          | '+' :: r => ((1 : ℤ), r)
          | _ => ((1 : ℤ), rest)
        let expDigits := rest.takeWhile Char.isDigit
        if expDigits.isEmpty || !(rest.drop expDigits.length).isEmpty then none
        else some (sign * mantissa * (10 : ℚ) ^ (esign * (digitsVal expDigits : ℤ)))
      else none

/-- Floor of a rational as an integer (`num.fdiv den`; the denominator of a
`ℚ` is always positive, so this is the mathematical floor). -/
def ratFloor (q : ℚ) : ℤ := Int.fdiv q.num q.den

/-- Round-half-to-even to an integer, as Python's `round` does. -/
def roundHalfEven (q : ℚ) : ℤ :=
  let f := ratFloor q
  if q - f < 1/2 then f
  else if 1/2 < q - f then f + 1
  else if f % 2 = 0 then f else f + 1

/-- Model of Python `round(x, 2)` on the exact rational value. -/
def pyRound2 (q : ℚ) : ℚ := (roundHalfEven (q * 100) : ℚ) / 100

/-! ## Model of `src/mains.py` (`MinimalExplainer`)

`intent_info` dictionaries become `IntentInfo`; the `log_results` dictionary
becomes `LogResults`.  A log file set is modelled as a list where `none`
stands for a missing file (skipped with a printed message in the source) and
`some lines` for the lines read from an existing file. -/

/-- The `intent_info` dictionary built by `MinimalExplainer.analyze_intent`. -/
structure IntentInfo where
  id : String
  description : String
  threshold : ℤ
  threshold_unit : String
  target : String
  deriving Repr, DecidableEq

/-- The `log_results` dictionary of `MinimalExplainer.analyze_logs`. -/
structure LogResults where
  total_entries : ℕ
  api_calls : ℕ
  avg_latency : ℚ
  max_latency : ℚ
  calls_over_threshold : ℕ
  vm_startups : ℕ
  avg_startup_time : ℚ
  deriving Repr, DecidableEq

/-- The initial `log_results` dictionary (all entries zero). -/
def initLogResults : LogResults :=
  { total_entries := 0, api_calls := 0, avg_latency := 0, max_latency := 0,
    calls_over_threshold := 0, vm_startups := 0, avg_startup_time := 0 }

/-- The Nova API call filter of `analyze_logs`: the line must contain all
three marker substrings. -/
def apiLineMatch (l : List Char) : Bool :=
  containsSub "nova.osapi_compute.wsgi.server".data l &&
  containsSub "GET /v2/".data l &&
  containsSub "/servers/detail".data l

/-- The VM startup filter of `analyze_logs`. -/
def vmLineMatch (l : List Char) : Bool :=
  containsSub "nova.compute.manager".data l &&
  containsSub "Instance spawned in".data l

/-- `line.split("time:")[-1].strip()` converted with `float` and scaled to
milliseconds; `none` models the caught extraction exception. -/
def extractLatencyMs (l : List Char) : Option ℚ :=
  match pyFloat? (pyStrip ((pySplitOn "time:".data l).getLastD [])) with
  | some q => some (q * 1000)
  | none => none

/-- `line.split("spawned in")[1].split("seconds")[0].strip()` converted with
`float`; `none` models the caught extraction exception (including the
`IndexError` when `"spawned in"` is absent). -/
def extractStartupTime (l : List Char) : Option ℚ :=
  match pySplitOn "spawned in".data l with
  | _ :: second :: _ =>
    pyFloat? (pyStrip ((pySplitOn "seconds".data second).headD []))
  | _ => none

/-- The Nova-API branch of the per-line loop in
`MinimalExplainer.analyze_logs`: count the call, then (inside the `try`)
update the running average, the maximum and the violation counter. -/
def apiStep (intent : IntentInfo) (lr : LogResults) (l : List Char) : LogResults :=
  if apiLineMatch l then
    let lr := { lr with api_calls := lr.api_calls + 1 }
    match extractLatencyMs l with
    | some latency =>
      let n : ℚ := (lr.api_calls : ℚ)
      let lr :=
        if lr.api_calls = 1 then { lr with avg_latency := latency }
        else { lr with avg_latency := (lr.avg_latency * (n - 1) + latency) / n }
      let lr := if lr.max_latency < latency then { lr with max_latency := latency } else lr
      if 0 < intent.threshold ∧ (intent.threshold : ℚ) < latency then
        { lr with calls_over_threshold := lr.calls_over_threshold + 1 }
      else lr
    | none => lr
  else lr

/-- The VM-startup branch of the per-line loop in
`MinimalExplainer.analyze_logs`. -/
def vmStep (lr : LogResults) (l : List Char) : LogResults :=
  if vmLineMatch l then
    let lr := { lr with vm_startups := lr.vm_startups + 1 }
    match extractStartupTime l with
    | some startupTime =>
      let n : ℚ := (lr.vm_startups : ℚ)
      if lr.vm_startups = 1 then { lr with avg_startup_time := startupTime }
      else { lr with avg_startup_time := (lr.avg_startup_time * (n - 1) + startupTime) / n }
    | none => lr
  else lr

/-- One iteration of the per-line loop in `MinimalExplainer.analyze_logs`:
count the entry, then run the two independent branch checks. -/
def processLine (intent : IntentInfo) (lr : LogResults) (line : String) : LogResults :=
  vmStep (apiStep intent { lr with total_entries := lr.total_entries + 1 } line.data)
    line.data

/-- Per-file step of `analyze_logs`: a missing file (`none`) is skipped. -/
def processFile (intent : IntentInfo) (lr : LogResults) : Option (List String) → LogResults
  | none => lr
  | some lines => lines.foldl (processLine intent) lr

/-- Model of `MinimalExplainer.analyze_logs`, including the final rounding of
the three averages. -/
def analyze_logs (log_files : List (Option (List String))) (intent : IntentInfo) :
    LogResults :=
  let lr := log_files.foldl (processFile intent) initLogResults
  { lr with
    avg_latency := pyRound2 lr.avg_latency,
    max_latency := pyRound2 lr.max_latency,
    avg_startup_time := pyRound2 lr.avg_startup_time }

/-- Model of `MinimalExplainer.determine_outcome`.  The float literals `0.2`
and `1.1` are modelled by the exact rationals `1/5` and `11/10`; in the
source, `calls_over_threshold > 0` implies `api_calls > 0`, so the division
is well defined there (Lean's `x / 0 = 0` convention is never hit on values
produced by `analyze_logs`). -/
def determine_outcome (intent : IntentInfo) (lr : LogResults) : String :=
  if intent.threshold_unit = "ms" then
    if lr.calls_over_threshold = 0 then "Success"
    else if (lr.calls_over_threshold : ℚ) / (lr.api_calls : ℚ) < 1/5 then "Partial Success"
    else "Failure"
  else if intent.threshold_unit = "s" then
    if lr.avg_startup_time ≤ (intent.threshold : ℚ) then "Success"
    else if lr.avg_startup_time ≤ (intent.threshold : ℚ) * (11/10) then "Partial Success"
    else "Failure"
  else "Unknown"

/-- The `threshold_violation_rate` computed for second-unit intents in
`MinimalExplainer.explain` (source lines 351-352). -/
def vmThresholdViolationRate (intent : IntentInfo) (lr : LogResults) : ℚ :=
  pyRound2 ((if (intent.threshold : ℚ) < lr.avg_startup_time then (lr.vm_startups : ℚ) else 0) /
    (if 0 < lr.vm_startups then (lr.vm_startups : ℚ) else 1) * 100)

/-! ### Concrete inputs used to exercise the `mains.py` model -/

/-- An API-latency intent with a 250 ms threshold (scenario A). -/
def apiLatencyIntent : IntentInfo :=
  { id := "I1", description := "API latency", threshold := 250,
    threshold_unit := "ms", target := "" }

/-- An API-latency intent for which no numeric threshold was recovered. -/
def apiNoThresholdIntent : IntentInfo :=
  { id := "I1", description := "API latency", threshold := 0,
    threshold_unit := "ms", target := "" }

/-- A VM-startup intent with a 30 s threshold (scenario B). -/
def vmStartupIntent : IntentInfo :=
  { id := "I2", description := "VM startup", threshold := 30,
    threshold_unit := "s", target := "" }

/-- A Nova API log line with a 100 ms request time. -/
def fastApiLine : String :=
  "nova.osapi_compute.wsgi.server GET /v2/x/servers/detail time: 0.1"

/-- A Nova API log line with a 300 ms request time. -/
def slowApiLine : String :=
  "nova.osapi_compute.wsgi.server GET /v2/x/servers/detail time: 0.3"

/-- A Nova API log line with a 250 ms request time (exactly at threshold). -/
def boundaryApiLine : String :=
  "nova.osapi_compute.wsgi.server GET /v2/x/servers/detail time: 0.25"

/-- Scenario A's log set: 10 matching lines, 8 under the threshold and 2 at
300 ms. -/
def scenarioAFiles : List (Option (List String)) :=
  [some (List.replicate 8 fastApiLine ++ [slowApiLine, slowApiLine])]

/-- Scenario B's log set: one readable file with no `spawned in` line. -/
def scenarioBFiles : List (Option (List String)) :=
  [some ["hello"]]

/-- An intent whose threshold unit is neither `ms` nor `s`. -/
def unknownUnitIntent : IntentInfo :=
  { id := "I3", description := "other", threshold := 5,
    threshold_unit := "kg", target := "" }

/-- Analysis results whose average startup time sits exactly at the 30 s
threshold of `vmStartupIntent`. -/
def vmBoundaryResults : LogResults :=
  { initLogResults with vm_startups := 3, avg_startup_time := 30 }

end IExplain

namespace IExplain

/-! ## Model of `src/tools/parse_tmf_intent.py`

The parser performs a single line-oriented scan with a current-subject
cursor; the two `re.search` patterns are modelled by deterministic matchers
(both patterns are backtracking-free: every quantified class is followed by a
character it cannot match). -/

/-- Python `\w` (ASCII subset: letters, digits, underscore; the analysed
intent documents are ASCII). -/
def wordChar (c : Char) : Bool := c.isAlphanum || c = '_'

/-- One entry of the `descriptions` list built by `parse_tmf_intent`. -/
structure TmfDescription where
  subject : String
  type : String
  description : String
  deriving Repr, DecidableEq

/-- Match `(\w+:[^\s]+)\s+a\s+(\w+:[^\s]+)` anchored at the start of `l`,
returning the two captured groups. -/
def typeMatchAt (l : List Char) : Option (String × String) :=
  let w1 := l.takeWhile wordChar
  if w1.isEmpty then none else
  match l.drop w1.length with
  | ':' :: r1 =>
    let t1 := r1.takeWhile (fun c => !(pySpace c))
    if t1.isEmpty then none else
    let r2 := r1.drop t1.length
    let ws1 := r2.takeWhile pySpace
    if ws1.isEmpty then none else
    match r2.drop ws1.length with
    | 'a' :: r3 =>
      let ws2 := r3.takeWhile pySpace
      if ws2.isEmpty then none else
      let r4 := r3.drop ws2.length
      let w2 := r4.takeWhile wordChar
      if w2.isEmpty then none else
      match r4.drop w2.length with
      | ':' :: r5 =>
        let t2 := r5.takeWhile (fun c => !(pySpace c))
        if t2.isEmpty then none else
        some ((w1 ++ ':' :: t1).asString, (w2 ++ ':' :: t2).asString)
      | _ => none
    | _ => none
  | _ => none

/-- `re.search` of the subject-type pattern: leftmost match. -/
def typeMatchSearch : List Char → Option (String × String)
  | [] => none
  | c :: cs =>
    match typeMatchAt (c :: cs) with
    | some r => some r
    | none => typeMatchSearch cs

/-- Match `dct:description\s+"([^"]+)"@en` anchored at the start of `l`. -/
def descMatchAt (l : List Char) : Option String :=
  if "dct:description".data.isPrefixOf l then
    let r1 := l.drop "dct:description".data.length
    let ws := r1.takeWhile pySpace
    if ws.isEmpty then none else
    match r1.drop ws.length with
    | '"' :: r2 =>
      let content := r2.takeWhile (fun c => c ≠ '"')
      if content.isEmpty then none else
      match r2.drop content.length with
      | '"' :: r3 => if "@en".data.isPrefixOf r3 then some content.asString else none
      | _ => none
    | _ => none
  else none

/-- `re.search` of the description pattern: leftmost match. -/
def descMatchSearch : List Char → Option String
  | [] => none
  | c :: cs =>
    match descMatchAt (c :: cs) with
    | some r => some r
    | none => descMatchSearch cs

/-- Python dict assignment on an insertion-ordered association list. -/
def assocSet (m : List (String × String)) (k v : String) : List (String × String) :=
  match m with
  | [] => [(k, v)]
  | (k', v') :: rest => if k' = k then (k, v) :: rest else (k', v') :: assocSet rest k v

/-- Python `dict.get(k, d)`. -/
def assocGetD (m : List (String × String)) (k d : String) : String :=
  match m with
  | [] => d
  | (k', v') :: rest => if k' = k then v' else assocGetD rest k d

/-- The scan state of `parse_tmf_intent`'s line loop. -/
structure TmfScanState where
  current_subject : Option String
  subject_types : List (String × String)
  descriptions : List TmfDescription
  deriving Repr, DecidableEq

/-- `type_parts[-1] if len(type_parts) > 1 else subject_type`. -/
def simpleType (t : String) : String :=
  let parts := pySplitOn ":".data t.data
  if parts.length > 1 then (parts.getLastD []).asString else t

/-- One iteration of the line loop in `parse_tmf_intent`: strip, skip
comments and prefixes, record subject types, record descriptions bound to the
current subject, and clear the cursor on statement-terminating lines. -/
def tmfLineStep (st : TmfScanState) (rawLine : String) : TmfScanState :=
  let line := pyStrip rawLine.data
  if line.isEmpty || "@prefix".data.isPrefixOf line || "#".data.isPrefixOf line then st
  else
    let st :=
      match typeMatchSearch line with
      | some (subject, typeName) =>
        { st with subject_types := assocSet st.subject_types subject typeName,
                  current_subject := some subject }
      | none => st
    let st :=
      match descMatchSearch line, st.current_subject with
      | some description, some subject =>
        let subjectType := assocGetD st.subject_types subject "Unknown"
        { st with descriptions := st.descriptions ++
            [{ subject := subject, type := simpleType subjectType,
               description := description }] }
      | _, _ => st
    if line.getLast? = some '.' then { st with current_subject := none } else st

/-- The description list produced by the scan over the stripped document. -/
def tmfDescriptions (turtle_string : String) : List TmfDescription :=
  let lines := (pySplitOn "\n".data (pyStrip turtle_string.data)).map List.asString
  (lines.foldl tmfLineStep
    { current_subject := none, subject_types := [], descriptions := [] }).descriptions

/-- The `summary` field built at the end of `parse_tmf_intent`: prefer the
first `Intent`/`DeliveryExpectation` description, else the first description,
else the fixed placeholder text. -/
def tmfSummary (descs : List TmfDescription) : String :=
  match descs with
  | [] => "Intent with no descriptions found"
  | d :: _ =>
    let mainDesc :=
      match descs.find? (fun x => x.type = "Intent" || x.type = "DeliveryExpectation") with
      | some m => m
      | none => d
    mainDesc.type ++ ": " ++ mainDesc.description

/-- Result of `parse_tmf_intent`: either the error dictionary or the intent
dictionary (descriptions, summary, raw intent). -/
inductive TmfResult where
  | err (message : String) (raw_intent : String)
  | ok (descriptions : List TmfDescription) (summary : String) (raw_intent : String)
  deriving Repr, DecidableEq

/-- Model of `parse_tmf_intent`.  Inside the `try`, no modelled operation can
raise, so the generic `except` branch is unreachable. -/
def parse_tmf_intent (turtle_string : String) : TmfResult :=
  if (pyStrip turtle_string.data).isEmpty then
    .err "Failed to parse intent: Empty input" ""
  else
    let descs := tmfDescriptions turtle_string
    .ok descs (tmfSummary descs) turtle_string

end IExplain

namespace IExplain

/-! ## Model of `src/explainer.py` and `src/utils.py` (output normalization)

Python/JSON values are modelled by `PyJson`; dictionaries keep insertion
order. `json.loads` is modelled by a strict recursive-descent parser
(`jsonParse`); `str.encode().decode('unicode_escape')` by `unicodeUnescape`
(ASCII inputs; the repository's conversations are ASCII).  Python exceptions
become `Except PyErr`: the source's `except json.JSONDecodeError` catches
exactly `PyErr.jsonDecodeError`, while the other error kinds propagate. -/

/-- A JSON/Python value.  Numbers are exact rationals; the non-standard
`NaN`/`Infinity` literals Python's `json` accepts are not modelled (nothing
in the repository produces them). -/
inductive PyJson where
  | null
  | bool (b : Bool)
  | num (q : ℚ)
  | str (s : String)
  | arr (items : List PyJson)
  | obj (fields : List (String × PyJson))
  deriving Repr

/-- A Python dict with string keys, in insertion order. -/
abbrev JsonObj := List (String × PyJson)

/-- Python equality between an optional JSON value and a string (`d.get(k) ==
s`): true exactly when the value is present and is that string. -/
def isStrVal (v : Option PyJson) (s : String) : Bool :=
  match v with
  | some (.str s2) => s2 = s
  | _ => false

/-- Python dict lookup `d.get(k)`. -/
def getKey (o : JsonObj) (k : String) : Option PyJson :=
  match o with
  | [] => none
  | (k', v) :: rest => if k' = k then some v else getKey rest k

/-- Python dict assignment `d[k] = v`: replace in place or append. -/
def setKey (o : JsonObj) (k : String) (v : PyJson) : JsonObj :=
  match o with
  | [] => [(k, v)]
  | (k', v') :: rest => if k' = k then (k, v) :: rest else (k', v') :: setKey rest k v

/-- Python `k in d`. -/
def hasKey (o : JsonObj) (k : String) : Bool := (getKey o k).isSome

/-- JSON whitespace accepted by `json.loads`. -/
def jsonWs (c : Char) : Bool := c = ' ' || c = '\t' || c = '\n' || c = '\r'

/-- Hex digit value. -/
def hexVal? (c : Char) : Option Nat :=
  if '0' ≤ c ∧ c ≤ '9' then some (c.toNat - '0'.toNat)
  else if 'a' ≤ c ∧ c ≤ 'f' then some (c.toNat - 'a'.toNat + 10)
  else if 'A' ≤ c ∧ c ≤ 'F' then some (c.toNat - 'A'.toNat + 10)
  else none

/-- Parse the body of a JSON string (opening quote already consumed):
standard escapes and `\uXXXX`; unescaped control characters are rejected
(strict mode). -/
def jsonStringAux (acc : List Char) : List Char → Option (String × List Char)
  | [] => none
  | '"' :: rest => some (acc.reverse.asString, rest)
  | '\\' :: esc =>
    match esc with
    | '"' :: r => jsonStringAux ('"' :: acc) r
    | '\\' :: r => jsonStringAux ('\\' :: acc) r
    | '/' :: r => jsonStringAux ('/' :: acc) r
    | 'b' :: r => jsonStringAux ('\x08' :: acc) r
    | 'f' :: r => jsonStringAux ('\x0c' :: acc) r
    | 'n' :: r => jsonStringAux ('\n' :: acc) r
    | 'r' :: r => jsonStringAux ('\r' :: acc) r
    | 't' :: r => jsonStringAux ('\t' :: acc) r
    | 'u' :: h1 :: h2 :: h3 :: h4 :: r =>
      match hexVal? h1, hexVal? h2, hexVal? h3, hexVal? h4 with
      | some a, some b, some c, some d =>
        jsonStringAux (Char.ofNat (((a * 16 + b) * 16 + c) * 16 + d) :: acc) r
      | _, _, _, _ => none
    | _ => none
  | c :: rest => if c.toNat < 32 then none else jsonStringAux (c :: acc) rest

/-- Parse a JSON number (strict grammar: `-? (0 | [1-9][0-9]*) frac? exp?`),
returning its exact rational value. -/
def jsonNumber? (l : List Char) : Option (ℚ × List Char) :=
  let (neg, l1) := match l with
    | '-' :: r => (true, r)
    | _ => (false, l)
  let intDigits :=
    match l1 with
    | '0' :: _ => ['0']
    | _ => l1.takeWhile Char.isDigit
  if intDigits.isEmpty then none
  else
    let l2 := l1.drop intDigits.length
    let (fracDigits, l3) :=
      match l2 with
      | '.' :: r =>
        let ds := r.takeWhile Char.isDigit
        (ds, r.drop ds.length)
      | _ => ([], l2)
    if l2 ≠ l3 ∧ fracDigits.isEmpty then none
    else
      let base : ℚ :=
        (digitsVal intDigits : ℚ) + (digitsVal fracDigits : ℚ) / ((10 : ℚ) ^ fracDigits.length)
      let withExp : Option (ℚ × List Char) :=
        match l3 with
        | e :: r =>
          if e = 'e' || e = 'E' then
            let (esign, r1) := match r with
              | '-' :: rr => ((-1 : ℤ), rr)
              | '+' :: rr => ((1 : ℤ), rr)
              | _ => ((1 : ℤ), r)
            let expDigits := r1.takeWhile Char.isDigit
            if expDigits.isEmpty then none
            else some (base * (10 : ℚ) ^ (esign * (digitsVal expDigits : ℤ)),
              r1.drop expDigits.length)
          else some (base, l3)
        | [] => some (base, l3)
      match withExp with
      | some (q, rest) => some ((if neg then -q else q), rest)
      | none => none

mutual

/-- Recursive-descent JSON value parser (fuel-bounded; any fuel `≥` the input
length suffices). -/
def jsonValue : Nat → List Char → Option (PyJson × List Char)
  | 0, _ => none
  | fuel + 1, l =>
    let l := l.dropWhile jsonWs
    match l with
    | '{' :: r =>
      let r1 := r.dropWhile jsonWs
      match r1 with
      | '}' :: r2 => some (.obj [], r2)
      | _ => jsonMembers fuel [] r
    | '[' :: r =>
      let r1 := r.dropWhile jsonWs
      match r1 with
      | ']' :: r2 => some (.arr [], r2)
      | _ => jsonItems fuel [] r
    | '"' :: r =>
      match jsonStringAux [] r with
      | some (s, rest) => some (.str s, rest)
      | none => none
    | 't' :: 'r' :: 'u' :: 'e' :: r => some (.bool true, r)
    | 'f' :: 'a' :: 'l' :: 's' :: 'e' :: r => some (.bool false, r)
    | 'n' :: 'u' :: 'l' :: 'l' :: r => some (.null, r)
    | _ =>
      match jsonNumber? l with
      | some (q, rest) => some (.num q, rest)
      | none => none

/-- Parse the members of a JSON object (after `{`); duplicate keys follow
dict-assignment semantics (the last occurrence wins, first position kept). -/
def jsonMembers : Nat → JsonObj → List Char → Option (PyJson × List Char)
  | 0, _, _ => none
  | fuel + 1, acc, l =>
    let l := l.dropWhile jsonWs
    match l with
    | '"' :: r =>
      match jsonStringAux [] r with
      | some (k, rest) =>
        let rest := rest.dropWhile jsonWs
        match rest with
        | ':' :: r2 =>
          match jsonValue fuel r2 with
          | some (v, r3) =>
            let r3 := r3.dropWhile jsonWs
            match r3 with
            | ',' :: r4 => jsonMembers fuel (setKey acc k v) r4
            | '}' :: r4 => some (.obj (setKey acc k v), r4)
            | _ => none
          | none => none
        | _ => none
      | none => none
    | _ => none

/-- Parse the items of a JSON array (after `[`). -/
def jsonItems : Nat → List PyJson → List Char → Option (PyJson × List Char)
  | 0, _, _ => none
  | fuel + 1, acc, l =>
    match jsonValue fuel l with
    | some (v, rest) =>
      let rest := rest.dropWhile jsonWs
      match rest with
      | ',' :: r2 => jsonItems fuel (acc ++ [v]) r2
      | ']' :: r2 => some (.arr (acc ++ [v]), r2)
      | _ => none
    | none => none

end

/-- Model of `json.loads`: parse one value and require only whitespace to
remain. -/
def jsonParse (l : List Char) : Option PyJson :=
  match jsonValue (l.length + 1) l with
  | some (v, rest) => if (rest.dropWhile jsonWs).isEmpty then some v else none
  | none => none

/-- Octal digit test (for `unicode_escape` octal escapes). -/
def octDigit (c : Char) : Bool := '0' ≤ c && c ≤ '7'

/-- Model of `text.encode().decode('unicode_escape')` on ASCII text: known
escapes are decoded, unknown escapes are kept verbatim, and truncated
`\x`/`\u`/`\U` escapes, `\N`, or a trailing backslash fail with
`UnicodeDecodeError` (`none`). -/
def unicodeUnescape : List Char → Option (List Char)
  | [] => some []
  | '\\' :: esc =>
    match esc with
    | [] => none
    | 'n' :: r => ('\n' :: ·) <$> unicodeUnescape r
    | 't' :: r => ('\t' :: ·) <$> unicodeUnescape r
    | 'r' :: r => ('\r' :: ·) <$> unicodeUnescape r
    | 'b' :: r => ('\x08' :: ·) <$> unicodeUnescape r
    | 'f' :: r => ('\x0c' :: ·) <$> unicodeUnescape r
    | 'v' :: r => ('\x0b' :: ·) <$> unicodeUnescape r
    | 'a' :: r => ('\x07' :: ·) <$> unicodeUnescape r
    | '\\' :: r => ('\\' :: ·) <$> unicodeUnescape r
    | '"' :: r => ('"' :: ·) <$> unicodeUnescape r
    | 'x' :: r =>
      match r with
      | h1 :: h2 :: rr =>
        match hexVal? h1, hexVal? h2 with
        | some a, some b => (Char.ofNat (a * 16 + b) :: ·) <$> unicodeUnescape rr
        | _, _ => none
      | _ => none
    | 'u' :: r =>
      match r with
      | h1 :: h2 :: h3 :: h4 :: rr =>
        match hexVal? h1, hexVal? h2, hexVal? h3, hexVal? h4 with
        | some a, some b, some c, some d =>
          (Char.ofNat (((a * 16 + b) * 16 + c) * 16 + d) :: ·) <$> unicodeUnescape rr
        | _, _, _, _ => none
      | _ => none
    | 'U' :: _ => none
    | 'N' :: _ => none
    | c :: r =>
      if c = Char.ofNat 39 then (Char.ofNat 39 :: ·) <$> unicodeUnescape r
      else if octDigit c then
        match r with
        | c2 :: c3 :: rr =>
          if octDigit c2 && octDigit c3 then
            (Char.ofNat (((c.toNat - 48) * 8 + (c2.toNat - 48)) * 8 + (c3.toNat - 48)) :: ·) <$>
              unicodeUnescape rr
          else if octDigit c2 then
            (Char.ofNat ((c.toNat - 48) * 8 + (c2.toNat - 48)) :: ·) <$>
              unicodeUnescape (c3 :: rr)
          else (Char.ofNat (c.toNat - 48) :: ·) <$> unicodeUnescape (c2 :: c3 :: rr)
        | [c2] =>
          if octDigit c2 then
            (Char.ofNat ((c.toNat - 48) * 8 + (c2.toNat - 48)) :: ·) <$> unicodeUnescape []
          else (Char.ofNat (c.toNat - 48) :: ·) <$> unicodeUnescape [c2]
        | [] => (Char.ofNat (c.toNat - 48) :: ·) <$> unicodeUnescape []
      else ('\\' :: c :: ·) <$> unicodeUnescape r
  | c :: rest => (c :: ·) <$> unicodeUnescape rest

/-- The Python exception kinds reachable in
`iExplain._extract_explanation_from_result`; the source catches only
`jsonDecodeError`. -/
inductive PyErr where
  | jsonDecodeError
  | unicodeDecodeError
  | typeError
  | attributeError
  deriving Repr, DecidableEq

/-- `unescaped[1:-1]` when the unescaped text both starts and ends with a
single quote. -/
def stripEnclosingQuotes (l : List Char) : List Char :=
  match l with
  | c :: _ =>
    if c = Char.ofNat 39 ∧ l.getLast? = some (Char.ofNat 39) then (l.drop 1).dropLast
    else l
  | [] => l

/-- Model of `utils.parse_escaped_json`: unescape, strip enclosing quotes,
then parse as JSON. -/
def parse_escaped_json (text : String) : Except PyErr PyJson :=
  match unicodeUnescape text.data with
  | none => .error .unicodeDecodeError
  | some u =>
    match jsonParse (stripEnclosingQuotes u) with
    | none => .error .jsonDecodeError
    | some j => .ok j

/-- Split at the first occurrence of `marker`, consuming it:
`some (before, after)`. -/
def splitAtMarker (marker : List Char) : List Char → Option (List Char × List Char)
  | [] => if marker.isEmpty then some ([], []) else none
  | c :: cs =>
    if marker.isPrefixOf (c :: cs) then some ([], (c :: cs).drop marker.length)
    else
      match splitAtMarker marker cs with
      | some (pre, post) => some (c :: pre, post)
      | none => none

/-- The scan behind `re.findall` of the fenced-block pattern
`(backtick-fence)json\s*([\s\S]*?)\s*(backtick-fence)`: each match runs from
an opening fence to the next closing fence, with the capture trimmed; matches
are non-overlapping and in text order. -/
def findBlocksAux : Nat → List Char → List (List Char)
  | 0, _ => []
  | _, [] => []
  | fuel + 1, c :: cs =>
    if "```json".data.isPrefixOf (c :: cs) then
      match splitAtMarker "```".data ((c :: cs).drop 7) with
      | some (content, after) => pyStrip content :: findBlocksAux fuel after
      | none => []
    else findBlocksAux fuel cs

/-- The list of fenced `json` block captures of `str(result)`, in order. -/
def findJsonBlocks (s : String) : List String :=
  (findBlocksAux (s.data.length + 1) s.data).map List.asString

/-- One entry of `result.chat_history`. -/
structure ChatMsg where
  role : String
  name : String
  content : String
  deriving Repr, DecidableEq

/-- The default explanation structure of the fallback path
(`explainer.py` lines 214-234), in source key order. -/
def defaultExplanation (nl st iid idesc now : String) : JsonObj :=
  [("timestamp", .str now),
   ("natural_language_intent", .str nl),
   ("structured_intent", .str st),
   ("intent", .obj [("id", .str iid), ("description", .str idesc)]),
   ("analysis", .obj [("total_logs_analyzed", .num 0)]),
   ("recommendations", .arr [.obj [("action", .str "Improve system monitoring"),
     ("reason", .str "Could not determine specific recommendations from logs")]]),
   ("outcome", .str "Unknown"),
   ("outcome_explanation", .str "Could not determine outcome from logs"),
   ("influencing_factors", .arr [.str "Log analysis incomplete"])]

/-! ### The fallback path's regular expressions

Each `re.search`/`re.findall` is modelled by a scan over start positions with
a deterministic matcher; the only backtracking the patterns can perform
(shrinking a greedy `\s+` and retrying later colons in the recommendation
pattern) is reproduced explicitly. -/

/-- Case-insensitive prefix test (the `re.IGNORECASE` flag; ASCII text). -/
def isPrefixOfCI : List Char → List Char → Bool
  | [], _ => true
  | _ :: _, [] => false
  | p :: ps, c :: cs => p.toLower = c.toLower && isPrefixOfCI ps cs

/-- The separator class `[:\s]+` of the labelled-section patterns. -/
def sepChar (c : Char) : Bool := c = ':' || pySpace c

/-- Capture of `(.*?)(?:\n|$)`: everything up to the next newline. -/
def captureToNl (l : List Char) : List Char := l.takeWhile (fun c => c ≠ '\n')

/-- Capture of `(.*?)(?:\n\n|$)` under `re.DOTALL`: everything up to the
first blank line (`\n\n`) or the end. -/
def captureToBlank : List Char → List Char
  | [] => []
  | '\n' :: '\n' :: _ => []
  | c :: cs => c :: captureToBlank cs

/-- Match `Intent Summary[:\s]+(.*?)(?:\n|$)` (IGNORECASE) at the start. -/
def intentSummaryAt (l : List Char) : Option (List Char) :=
  if isPrefixOfCI "Intent Summary".data l then
    let r := l.drop 14
    let sep := r.takeWhile sepChar
    if sep.isEmpty then none
    else some (captureToNl (r.drop sep.length))
  else none

/-- `re.search` of the intent-summary pattern. -/
def intentSummarySearch : List Char → Option (List Char)
  | [] => none
  | c :: cs =>
    match intentSummaryAt (c :: cs) with
    | some r => some r
    | none => intentSummarySearch cs

/-- The outcome literal alternation, in source order. -/
def outcomeLits : List String := ["Success", "Partial Success", "Failure"]

/-- First alternation branch matching case-insensitively at the start of
`l`, captured as the actual text segment. -/
def firstLitCI (lits : List String) (l : List Char) : Option (List Char) :=
  match lits with
  | [] => none
  | lit :: rest =>
    if isPrefixOfCI lit.data l then some (l.take lit.data.length)
    else firstLitCI rest l

/-- Match `Outcome[:\s]+(Success|Partial Success|Failure)` (IGNORECASE) at
the start. -/
def outcomeAt (l : List Char) : Option (List Char) :=
  if isPrefixOfCI "Outcome".data l then
    let r := l.drop 7
    let sep := r.takeWhile sepChar
    if sep.isEmpty then none
    else firstLitCI outcomeLits (r.drop sep.length)
  else none

/-- `re.search` of the outcome pattern. -/
def outcomeSearch : List Char → Option (List Char)
  | [] => none
  | c :: cs =>
    match outcomeAt (c :: cs) with
    | some r => some r
    | none => outcomeSearch cs

/-- Match `Outcome Explanation[:\s]+(.*?)(?:\n\n|$)` (DOTALL,
case-sensitive) at the start. -/
def outcomeExplanationAt (l : List Char) : Option (List Char) :=
  if "Outcome Explanation".data.isPrefixOf l then
    let r := l.drop 19
    let sep := r.takeWhile sepChar
    if sep.isEmpty then none
    else some (captureToBlank (r.drop sep.length))
  else none

/-- `re.search` of the outcome-explanation pattern. -/
def outcomeExplanationSearch : List Char → Option (List Char)
  | [] => none
  | c :: cs =>
    match outcomeExplanationAt (c :: cs) with
    | some r => some r
    | none => outcomeExplanationSearch cs

/-- Consume the optional `\n` matched by a trailing `(?:\n|$)`. -/
def dropOneNl : List Char → List Char
  | '\n' :: r => r
  | l => l

/-- Backtracking for `\s+(.+?)(?:\n|$)` when the text ends inside the
whitespace run: greedily give back whitespace characters (argument = current
candidate length of the `\s+` part) until the reason can start on a
non-newline character. -/
def recTailBtAux (ws : List Char) : Nat → Option (String × List Char)
  | 0 => none
  | j + 1 =>
    match ws.get? (j + 1) with
    | some c =>
      if c = '\n' then recTailBtAux ws j
      else
        let tailPart := ws.drop (j + 1)
        let reason := captureToNl tailPart
        some (reason.asString, dropOneNl (tailPart.drop reason.length))
    | none => recTailBtAux ws j

/-- Match `\s+(.+?)(?:\n|$)` at the start of `r` (the part of the
recommendation pattern after the colon). -/
def recTail (r : List Char) : Option (String × List Char) :=
  let ws := r.takeWhile pySpace
  match ws with
  | [] => none
  | _ =>
    let rest := r.drop ws.length
    match rest with
    | _ :: _ =>
      let reason := captureToNl rest
      some (reason.asString, dropOneNl (rest.drop reason.length))
    | [] => recTailBtAux ws (ws.length - 1)

/-- Scan for the colon ending the lazy action capture `(.+?)(?::|:)` of the
recommendation pattern: the earliest colon (preceded by at least one
non-newline character) whose tail matches, later colons being retried on
failure. -/
def recColonScan (acc : List Char) : List Char → Option (String × String × List Char)
  | [] => none
  | c :: cs =>
    if c = '\n' then none
    else if c = ':' then
      match (match acc with
             | [] => none
             | _ :: _ => recTail cs) with
      | some (reason, after) => some (acc.reverse.asString, reason, after)
      | none => recColonScan (c :: acc) cs
    else recColonScan (c :: acc) cs

/-- `re.findall` of `- (.+?)(?::|:)\s+(.+?)(?:\n|$)` (both alternation
branches of the source pattern are the ASCII colon): the `(action, reason)`
pairs, in order, non-overlapping. -/
def findRecsAux : Nat → List Char → List (String × String)
  | 0, _ => []
  | _, [] => []
  | fuel + 1, c :: cs =>
    if "- ".data.isPrefixOf (c :: cs) then
      match recColonScan [] ((c :: cs).drop 2) with
      | some (action, reason, after) => (action, reason) :: findRecsAux fuel after
      | none => findRecsAux fuel cs
    else findRecsAux fuel cs

/-- All recommendation pairs found in a message content. -/
def findRecs (l : List Char) : List (String × String) :=
  findRecsAux (l.length + 1) l

/-- Match `(?:Factors|Influencing Factors)[:\s]+(.*?)(?:\n\n|$)` (DOTALL) at
the start: alternation branches in source order. -/
def factorsAt (l : List Char) : Option (List Char) :=
  let sepCapture : List Char → Option (List Char) := fun r =>
    let sep := r.takeWhile sepChar
    if sep.isEmpty then none else some (captureToBlank (r.drop sep.length))
  if "Factors".data.isPrefixOf l then sepCapture (l.drop 7)
  else if "Influencing Factors".data.isPrefixOf l then sepCapture (l.drop 19)
  else none

/-- `re.search` of the factors-section pattern. -/
def factorsSearch : List Char → Option (List Char)
  | [] => none
  | c :: cs =>
    match factorsAt (c :: cs) with
    | some r => some r
    | none => factorsSearch cs

/-- `re.findall` of `- (.+?)(?:\n|$)` over the factors section. -/
def factorItemsAux : Nat → List Char → List String
  | 0, _ => []
  | _, [] => []
  | fuel + 1, c :: cs =>
    if "- ".data.isPrefixOf (c :: cs) then
      match (c :: cs).drop 2 with
      | [] => factorItemsAux fuel cs
      | d :: ds =>
        if d = '\n' then factorItemsAux fuel cs
        else
          let item := captureToNl (d :: ds)
          item.asString :: factorItemsAux fuel (dropOneNl ((d :: ds).drop item.length))
    else factorItemsAux fuel cs

/-- The stripped, non-empty factor strings extracted from a content. -/
def factorsExtract (l : List Char) : List String :=
  match factorsSearch l with
  | some section2 =>
    ((factorItemsAux (section2.length + 1) section2).map
      (fun f => (pyStrip f.data).asString)).filter (fun f => !f.isEmpty)
  | none => []

/-! ### The fallback path's per-message updates -/

/-- `explanation['intent']['description'] = d` (the fallback record always
holds an object under `intent`). -/
def setIntentDescription (e : JsonObj) (d : String) : JsonObj :=
  match getKey e "intent" with
  | some (.obj io) => setKey e "intent" (.obj (setKey io "description" (.str d)))
  | _ => e

/-- Apply the intent-summary extraction of one message. -/
def applyIntentSummary (e : JsonObj) (content : List Char) : JsonObj :=
  match intentSummarySearch content with
  | some cap => setIntentDescription e (pyStrip cap).asString
  | none => e

/-- Apply the outcome extraction of one message. -/
def applyOutcome (e : JsonObj) (content : List Char) : JsonObj :=
  match outcomeSearch content with
  | some cap => setKey e "outcome" (.str (pyStrip cap).asString)
  | none => e

/-- Apply the outcome-explanation extraction of one message. -/
def applyOutcomeExplanation (e : JsonObj) (content : List Char) : JsonObj :=
  match outcomeExplanationSearch content with
  | some cap => setKey e "outcome_explanation" (.str (pyStrip cap).asString)
  | none => e

/-- Apply the recommendations extraction of one message (only when at least
one pair was found). -/
def applyRecommendations (e : JsonObj) (content : List Char) : JsonObj :=
  let recs := findRecs content
  if recs.isEmpty then e
  else
    setKey e "recommendations" (.arr (recs.map (fun p =>
      .obj [("action", .str (pyStrip p.1.data).asString),
            ("reason", .str (pyStrip p.2.data).asString)])))

/-- Apply the influencing-factors extraction of one message (only when at
least one non-empty factor was found). -/
def applyFactors (e : JsonObj) (content : List Char) : JsonObj :=
  let factors := factorsExtract content
  if factors.isEmpty then e
  else setKey e "influencing_factors" (.arr (factors.map .str))

/-- The filter of the fallback message loop:
`msg.get('role') == 'assistant' and 'explanation_generator_agent' in
msg.get('name', '')`. -/
def msgMatches (msg : ChatMsg) : Bool :=
  msg.role = "assistant" && containsSub "explanation_generator_agent".data msg.name.data

/-- One iteration of the fallback message loop. -/
def applyMsg (e : JsonObj) (msg : ChatMsg) : JsonObj :=
  if msgMatches msg then
    let content := msg.content.data
    applyFactors
      (applyRecommendations
        (applyOutcomeExplanation
          (applyOutcome (applyIntentSummary e content) content) content) content) content
  else e

/-- The fallback path of `_extract_explanation_from_result`: start from the
default record and run the extraction loop over `chat_history[::-1]`. -/
def fallbackExtract (chatHistory : List ChatMsg) (nl st iid idesc now : String) : JsonObj :=
  chatHistory.reverse.foldl applyMsg (defaultExplanation nl st iid idesc now)

/-- The fenced-block path after a successful parse into a dict: attach the
intents, force the canonical id and description (a mismatch produces a
printed warning, returned here as a list of warning strings), and stamp the
time.  A non-dict value under `intent` makes `.get` fail
(`AttributeError`). -/
def fencedAssemble (fields : JsonObj) (nl st iid idesc now : String) :
    Except PyErr (JsonObj × List String) :=
  let e1 := setKey fields "natural_language_intent" (.str nl)
  let e2 := setKey e1 "structured_intent" (.str st)
  let e3 := if hasKey e2 "intent" then e2 else setKey e2 "intent" (.obj [])
  match getKey e3 "intent" with
  | some (.obj io) =>
    let w1 : List String :=
      if !(isStrVal (getKey io "id") iid) then
        ["Warning: intent id does not match expected id"] else []
    let io1 := setKey io "id" (.str iid)
    let w2 : List String :=
      if !(isStrVal (getKey io1 "description") idesc) then
        ["Warning: intent description does not match expected description"] else []
    let io2 := setKey io1 "description" (.str idesc)
    .ok (setKey (setKey e3 "intent" (.obj io2)) "timestamp" (.str now), w1 ++ w2)
  | some _ => .error .attributeError
  | none => .error .attributeError

/-- The result of the fenced path for a given first block `b`: parse it;
a parse into a non-dict raises `TypeError` at the first item assignment; a
`JSONDecodeError` falls through to the fallback path; an unescape error
propagates. -/
def firstBlockResult (b : String) (chatHistory : List ChatMsg)
    (nl st iid idesc now : String) : Except PyErr (JsonObj × List String) :=
  match parse_escaped_json b with
  | .ok (.obj fields) => fencedAssemble fields nl st iid idesc now
  | .ok _ => .error .typeError
  | .error .jsonDecodeError => .ok (fallbackExtract chatHistory nl st iid idesc now, [])
  | .error e => .error e

/-- Model of `iExplain._extract_explanation_from_result`.  `resultText`
stands for `str(result)` and `chatHistory` for `result.chat_history`; the
returned strings model the printed mismatch warnings. -/
def extractExplanationFromResult (resultText : String) (chatHistory : List ChatMsg)
    (nl st iid idesc now : String) : Except PyErr (JsonObj × List String) :=
  match findJsonBlocks resultText with
  | [] => .ok (fallbackExtract chatHistory nl st iid idesc now, [])
  | b :: _ => firstBlockResult b chatHistory nl st iid idesc now

/-- The keys of `config.EXPLANATION_CONFIG`, in configuration order. -/
def explanationConfigFields : List String :=
  ["timestamp", "intent", "outcome", "outcome_explanation", "system_interpretation",
   "key_actions", "analysis", "recommendations", "influencing_factors"]

/-- The record that `iExplain.explain` passes to
`_save_explanation_to_file`: the extraction result with session metadata and
the conversation log attached (the file dump preserves all keys). -/
def explainPersistedRecord (extracted : JsonObj) (sessionMetadata conversation : PyJson) :
    JsonObj :=
  setKey (setKey extracted "session_metadata" sessionMetadata) "agent_conversation" conversation

/-- The nested intent field of a record, when the record holds an object
under `intent`. -/
def recIntentField (rec : JsonObj) (f : String) : Option PyJson :=
  match getKey rec "intent" with
  | some (.obj io) => getKey io f
  | _ => none

/-- A record's value under `k` when it is a string. -/
def getStrKey (rec : JsonObj) (k : String) : Option String :=
  match getKey rec k with
  | some (.str s) => some s
  | _ => none

/-- A record's nested intent field when it is a string. -/
def recIntentStr (rec : JsonObj) (f : String) : Option String :=
  match recIntentField rec f with
  | some (.str s) => some s
  | _ => none

/-- The record of a successful extraction. -/
def extractOk? (r : Except PyErr (JsonObj × List String)) : Option JsonObj :=
  match r with
  | .ok (rec, _) => some rec
  | .error _ => none

/-- The propagated exception of a failed extraction. -/
def extractErr? (r : Except PyErr (JsonObj × List String)) : Option PyErr :=
  match r with
  | .ok _ => none
  | .error e => some e

/-! ### Concrete inputs used to exercise the normalization model -/

/-- The capture of scenario C's first fenced block. -/
def blockFailure : String := "\x7b\"outcome\": \"Failure\"\x7d"

/-- The capture of scenario C's second fenced block. -/
def blockSuccess : String := "\x7b\"outcome\": \"Success\"\x7d"

/-- A raw result with two fenced `json` blocks of different content. -/
def twoBlockText : String :=
  "pre ```json\n\x7b\"outcome\": \"Failure\"\x7d\n``` mid ```json\n\x7b\"outcome\": \"Success\"\x7d\n``` post"

/-- A raw result whose single fenced block parses to the empty dict. -/
def emptyObjText : String := "```json\n\x7b\x7d\n```"

/-- A raw result whose single fenced block holds a truncated `\x` escape. -/
def badEscapeText : String := "```json\n\\x\n```"

/-- A raw result with no fenced block at all. -/
def noBlockText : String := "no structured block here"

/-- An explanation-generator message whose labelled Intent Summary differs
from the canonical description. -/
def hackMsg : ChatMsg :=
  { role := "assistant", name := "explanation_generator_agent",
    content := "Intent Summary: Hacked\nmore text" }

/-- A message that the fallback loop's filter rejects. -/
def userMsg : ChatMsg :=
  { role := "user", name := "user_proxy_agent", content := "hello" }

/-- Parsed fields whose intent id disagrees with the canonical id. -/
def c8WrongFields : JsonObj := [("intent", .obj [("id", .str "WRONG")])]

/-- The two mismatch warnings printed when the parsed block carries neither
the canonical id nor the canonical description. -/
def mismatchWarnings : List String :=
  ["Warning: intent id does not match expected id",
   "Warning: intent description does not match expected description"]

/-- The record `fencedAssemble` builds from `c8WrongFields` with canonical
id `I1` and description `Canonical`. -/
def c8FencedRec : JsonObj :=
  [("intent", .obj [("id", .str "I1"), ("description", .str "Canonical")]),
   ("natural_language_intent", .str "n"),
   ("structured_intent", .str "s"),
   ("timestamp", .str "T")]

/-- The record `fencedAssemble` builds from the empty dict with canonical id
`I1` and description `D`. -/
def c3FencedRec : JsonObj :=
  [("natural_language_intent", .str "n"),
   ("structured_intent", .str "s"),
   ("intent", .obj [("id", .str "I1"), ("description", .str "D")]),
   ("timestamp", .str "T")]

end IExplain

namespace IExplain

/-! ## Model of `src/workflows/` (the three strategies)

The external reasoning capability is abstracted as an `AgentOracle` mapping
an agent name and a message to a stage summary plus that stage's chat
messages (the `ChatResult` objects of the source).  Each strategy's
`execute` calls `self.validate_agents(agents)` first — `ValueError` on a
missing role — and only afterwards builds prompts and invokes agents, so in
the error case the oracle is never consulted and no transcript exists. -/

/-- The `ValueError` raised by `BaseWorkflow.validate_agents`. -/
inductive WorkflowError where
  | missingRole (workflow : String) (required missing : List String)
  deriving Repr, DecidableEq

/-- Model of `BaseWorkflow.validate_agents`: collect the required names
absent from the agent map (in required order) and fail when any is
missing. -/
def validateAgents (workflow : String) (required agents : List String) :
    Except WorkflowError Unit :=
  let missing := required.filter (fun name => !agents.contains name)
  if missing.isEmpty then .ok ()
  else .error (.missingRole workflow required missing)

/-- `SequentialWorkflow.get_required_agents()`. -/
def sequentialRequiredAgents : List String :=
  ["coordinator_agent", "intent_parser_agent", "log_analysis_agent",
   "explanation_generator_agent"]

/-- `NestedWorkflow.get_required_agents()`. -/
def nestedRequiredAgents : List String :=
  ["coordinator_agent", "intent_parser_agent", "log_analysis_agent",
   "explanation_generator_agent"]

/-- `GroupchatWorkflow.get_required_agents()`. -/
def groupchatRequiredAgents : List String :=
  ["intent_parser_agent", "log_analysis_agent", "explanation_generator_agent"]

/-- The external reasoning capability: one invocation of a named agent with
a message, returning the stage summary and the stage's chat messages. -/
structure AgentOracle (μ : Type) where
  invoke : String → String → String × List μ

/-- The `intent_data` dictionary fields the workflow prompts consume. -/
structure IntentData where
  structured_intent : String
  nl_intent : String
  deriving Repr, DecidableEq

/-- The optional natural-language section shared by the prompt builders
(`if intent_data.get('nl_intent')`). -/
def buildNlSection (nl_intent : String) : String :=
  if nl_intent.isEmpty then ""
  else "\n\nNatural language version:\n" ++ nl_intent

/-- `SequentialWorkflow._build_intent_prompt`. -/
def buildIntentPrompt (d : IntentData) : String :=
  "Analyze this TMF intent and extract structured information.\n\nIntent (TMF format):\n```\n" ++
  d.structured_intent ++ "\n```\n" ++ buildNlSection d.nl_intent ++
  "\n\nExtract and provide:\n1. Primary Objective: What does the user want to achieve?\n2. Key Metrics and Thresholds: What specific measurements and targets are defined? (e.g., \"latency < 100ms\", \"bandwidth > 1Gbps\")\n3. Context: Geographic regions, time constraints, or other contextual information\n4. Success Criteria: How do we determine if the intent is fulfilled?\n\nProvide a clear, structured summary of these components."

/-- `SequentialWorkflow._build_log_analysis_prompt`. -/
def buildLogAnalysisPrompt (intentSummary : String) (log_files : List String) : String :=
  "Based on this intent summary:\n\n```\n" ++ intentSummary ++ "\n```\n\nAnalyze these log files: " ++
  String.intercalate ", " log_files ++
  "\n\nYour task:\n1. Identify what actions were taken by the system (cite specific log entries with timestamps)\n2. Measure actual outcomes for the metrics specified in the intent\n3. Compare measured values against the intent's thresholds\n4. Determine if the system met the success criteria\n5. Identify factors that influenced the outcome (positive or negative)\n\nProvide evidence from the logs to support your analysis. Structure your response clearly with sections for Actions, Outcomes, Comparison, and Factors."

/-- `SequentialWorkflow._build_explanation_prompt`. -/
def buildExplanationPrompt (intentSummary logSummary : String)
    (expected_fields : List String) : String :=
  "Generate a structured explanation based on the following analysis:\n\nINTENT SUMMARY:\n```\n" ++
  intentSummary ++ "\n```\n\nLOG ANALYSIS:\n```\n" ++ logSummary ++
  "\n```\n\nCreate a JSON object with these fields:\n\n" ++
  String.intercalate "\n" expected_fields ++
  "\n\nGuidelines:\n- Classify outcome as \"Success\", \"Partial Success\", or \"Failure\"\n- Provide clear explanations supported by evidence\n- Be concise but complete\n- Use language appropriate for non-technical stakeholders\n\nOutput ONLY the JSON object, wrapped in ```json``` markers."

/-- `SequentialWorkflow.execute`: validate, then the strict three-stage
pipeline, each stage's summary carried into the next stage's prompt; the
returned transcript is the concatenation of the three stage histories. -/
def sequentialExecute {μ : Type} (oracle : AgentOracle μ) (agents : List String)
    (intent_data : IntentData) (log_files expected_fields : List String) :
    Except WorkflowError (String × List μ) :=
  match validateAgents "SequentialWorkflow" sequentialRequiredAgents agents with
  | .error e => .error e
  | .ok _ =>
    let (intentSummary, h1) :=
      oracle.invoke "intent_parser_agent" (buildIntentPrompt intent_data)
    let (logSummary, h2) :=
      oracle.invoke "log_analysis_agent" (buildLogAnalysisPrompt intentSummary log_files)
    let (explanationSummary, h3) :=
      oracle.invoke "explanation_generator_agent"
        (buildExplanationPrompt intentSummary logSummary expected_fields)
    .ok (explanationSummary, h1 ++ h2 ++ h3)

/-- `NestedWorkflow._build_intent_prompt`. -/
def buildNestedIntentPrompt (d : IntentData) : String :=
  "Analyze this TMF intent and extract structured information.\n\nIntent (TMF format):\n```\n" ++
  d.structured_intent ++ "\n```\n" ++ buildNlSection d.nl_intent ++
  "\n\nExtract and provide:\n1. Primary Objective: What does the user want to achieve?\n2. Key Metrics and Thresholds: What specific measurements and targets are defined?\n3. Context: Geographic regions, time constraints, or other contextual information\n4. Success Criteria: How do we determine if the intent is fulfilled?\n\nProvide a clear, structured summary of these components."

/-- `NestedWorkflow._build_log_analysis_message`. -/
def buildNestedLogAnalysisMessage (log_files : List String) : String :=
  "Analyze these log files: " ++ String.intercalate ", " log_files ++
  "\n\nBased on the intent summary provided, determine:\n1. What actions were taken by the system?\n2. What were the measured outcomes for the specified metrics?\n3. Did the system meet the success criteria?\n4. What factors influenced the outcome?\n\nProvide evidence from the logs to support your analysis."

/-- `NestedWorkflow._build_explanation_prompt`. -/
def buildNestedExplanationPrompt (expected_fields : List String) : String :=
  "Generate a structured explanation based on the intent analysis and log findings.\n\nCreate a JSON object with these fields:\n" ++
  String.intercalate "\n" expected_fields ++
  "\n\nGuidelines:\n- Classify outcome as \"Success\", \"Partial Success\", or \"Failure\"\n- Provide clear explanations supported by evidence\n- Be concise but complete\n- Use language appropriate for non-technical stakeholders\n\nOutput ONLY the JSON object, wrapped in ```json``` markers."

/-- `NestedWorkflow.execute`: validate, then the outer sequence with the
nested log analysis bound as a trigger to the intent parser's completion
(the trigger firing is modelled as the middle invocation). -/
def nestedExecute {μ : Type} (oracle : AgentOracle μ) (agents : List String)
    (intent_data : IntentData) (log_files expected_fields : List String) :
    Except WorkflowError (String × List μ) :=
  match validateAgents "NestedWorkflow" nestedRequiredAgents agents with
  | .error e => .error e
  | .ok _ =>
    let (_, h1) :=
      oracle.invoke "intent_parser_agent" (buildNestedIntentPrompt intent_data)
    let (_, h2) :=
      oracle.invoke "log_analysis_agent" (buildNestedLogAnalysisMessage log_files)
    let (finalSummary, h3) :=
      oracle.invoke "explanation_generator_agent"
        (buildNestedExplanationPrompt expected_fields)
    .ok (finalSummary, h1 ++ h2 ++ h3)

/-- `GroupchatWorkflow._build_initial_prompt`. -/
def buildInitialPrompt (d : IntentData) (log_files expected_fields : List String) : String :=
  "I need to explain how a system addressed a user's intent.\n\nINTENT (TMF format):\n```\n" ++
  d.structured_intent ++ "\n```\n" ++ buildNlSection d.nl_intent ++
  "\n\nLOG FILES to analyze: " ++ String.intercalate ", " log_files ++
  "\n\nTASK:\nWork together to:\n1. Parse and understand the intent (intent_parser_agent)\n2. Analyze the logs to determine if the intent was met (log_analysis_agent)\n3. Generate a structured explanation (explanation_generator_agent)\n\nREQUIRED OUTPUT:\nThe final explanation must be a JSON object with these fields:\n" ++
  String.intercalate "\n" expected_fields ++
  "\n\nThe explanation should:\n- Classify outcome as \"Success\", \"Partial Success\", or \"Failure\"\n- Be evidence-based (cite log entries where appropriate)\n- Be clear and concise for non-technical stakeholders\n- Include actionable recommendations\n\nPlease collaborate to produce this explanation."

/-- `GroupchatWorkflow.execute`: validate, then one group conversation run
under the manager (the whole content-driven chat is one oracle
invocation). -/
def groupchatExecute {μ : Type} (oracle : AgentOracle μ) (agents : List String)
    (intent_data : IntentData) (log_files expected_fields : List String) :
    Except WorkflowError (String × List μ) :=
  match validateAgents "GroupchatWorkflow" groupchatRequiredAgents agents with
  | .error e => .error e
  | .ok _ =>
    let (result, history) :=
      oracle.invoke "groupchat_manager"
        (buildInitialPrompt intent_data log_files expected_fields)
    .ok (result, history)

/-- A concrete agent map missing the log-analysis role. -/
def agentsMissingLogAnalysis : List String :=
  ["coordinator_agent", "intent_parser_agent", "explanation_generator_agent"]

/-- A concrete oracle over `Nat` messages. -/
def zeroOracle : AgentOracle Nat := ⟨fun _ _ => ("", [])⟩

/-- A second, observably different concrete oracle. -/
def oneOracle : AgentOracle Nat := ⟨fun _ _ => ("one", [1])⟩

end IExplain

namespace IExplain

/-! ## Helper lemmas about the log analyzer -/

/-- The VM branch never touches the API fields. -/
theorem vmStep_api_fields (lr : LogResults) (l : List Char) :
    (vmStep lr l).calls_over_threshold = lr.calls_over_threshold ∧
    (vmStep lr l).api_calls = lr.api_calls := by
  unfold vmStep
  split
  · dsimp only
    split
    · split <;> exact ⟨rfl, rfl⟩
    · exact ⟨rfl, rfl⟩
  · exact ⟨rfl, rfl⟩

/-- The API branch never touches the VM fields. -/
theorem apiStep_vm_fields (intent : IntentInfo) (lr : LogResults) (l : List Char) :
    (apiStep intent lr l).vm_startups = lr.vm_startups ∧
    (apiStep intent lr l).avg_startup_time = lr.avg_startup_time := by
  unfold apiStep
  split
  · dsimp only
    split
    · split <;> split <;> split <;> exact ⟨rfl, rfl⟩
    · exact ⟨rfl, rfl⟩
  · exact ⟨rfl, rfl⟩

/-- A line without the VM-startup markers leaves the VM branch inert. -/
theorem vmStep_no_match (lr : LogResults) (l : List Char)
    (h : vmLineMatch l = false) : vmStep lr l = lr := by
  unfold vmStep
  simp [h]

/-- If the extracted latency never strictly exceeds a positive threshold,
the violation counter is unchanged by the API branch. -/
theorem apiStep_count_eq (intent : IntentInfo) (lr : LogResults) (l : List Char)
    (h : ∀ lat, extractLatencyMs l = some lat →
      ¬(0 < intent.threshold ∧ (intent.threshold : ℚ) < lat)) :
    (apiStep intent lr l).calls_over_threshold = lr.calls_over_threshold := by
  unfold apiStep
  split
  · dsimp only
    split
    next lat heq =>
      split <;> split <;> split <;>
        first
        | rfl
        | exact absurd (by assumption) (h lat heq)
    · rfl
  · rfl

/-- Per-line version of `apiStep_count_eq`. -/
theorem processLine_count_eq (intent : IntentInfo) (lr : LogResults) (line : String)
    (h : ∀ lat, extractLatencyMs line.data = some lat →
      ¬(0 < intent.threshold ∧ (intent.threshold : ℚ) < lat)) :
    (processLine intent lr line).calls_over_threshold = lr.calls_over_threshold := by
  unfold processLine
  rw [(vmStep_api_fields _ _).1, apiStep_count_eq intent _ _ h]

/-- A line without the VM-startup markers leaves both VM fields unchanged. -/
theorem processLine_vm_fields (intent : IntentInfo) (lr : LogResults) (line : String)
    (h : vmLineMatch line.data = false) :
    (processLine intent lr line).vm_startups = lr.vm_startups ∧
    (processLine intent lr line).avg_startup_time = lr.avg_startup_time := by
  unfold processLine
  rw [vmStep_no_match _ _ h]
  exact apiStep_vm_fields intent _ _

/-- Folding the per-line loop over violation-free lines keeps the violation
counter. -/
theorem foldl_count_eq (intent : IntentInfo) (lines : List String)
    (h : ∀ line ∈ lines, ∀ lat, extractLatencyMs line.data = some lat →
      ¬(0 < intent.threshold ∧ (intent.threshold : ℚ) < lat)) :
    ∀ lr : LogResults,
      (lines.foldl (processLine intent) lr).calls_over_threshold =
        lr.calls_over_threshold := by
  induction lines with
  | nil => intro lr; rfl
  | cons a as ih =>
    intro lr
    rw [List.foldl_cons, ih (fun line hm => h line (List.mem_cons_of_mem a hm)),
      processLine_count_eq intent lr a (h a (List.mem_cons_self a as))]

/-- Folding the per-line loop over VM-marker-free lines keeps both VM
fields. -/
theorem foldl_vm_fields (intent : IntentInfo) (lines : List String)
    (h : ∀ line ∈ lines, vmLineMatch line.data = false) :
    ∀ lr : LogResults,
      (lines.foldl (processLine intent) lr).vm_startups = lr.vm_startups ∧
      (lines.foldl (processLine intent) lr).avg_startup_time = lr.avg_startup_time := by
  induction lines with
  | nil => intro lr; exact ⟨rfl, rfl⟩
  | cons a as ih =>
    intro lr
    rw [List.foldl_cons]
    have hline := processLine_vm_fields intent lr a (h a (List.mem_cons_self a as))
    have htail := ih (fun line hm => h line (List.mem_cons_of_mem a hm)) (processLine intent lr a)
    exact ⟨htail.1.trans hline.1, htail.2.trans hline.2⟩

/-- File-set version of `foldl_count_eq`. -/
theorem files_count_eq (intent : IntentInfo) (files : List (Option (List String)))
    (h : ∀ lines, some lines ∈ files → ∀ line ∈ lines, ∀ lat,
      extractLatencyMs line.data = some lat →
      ¬(0 < intent.threshold ∧ (intent.threshold : ℚ) < lat)) :
    ∀ lr : LogResults,
      (files.foldl (processFile intent) lr).calls_over_threshold =
        lr.calls_over_threshold := by
  induction files with
  | nil => intro lr; rfl
  | cons f fs ih =>
    intro lr
    rw [List.foldl_cons]
    have hstep : (processFile intent lr f).calls_over_threshold = lr.calls_over_threshold := by
      cases f with
      | none => rfl
      | some lines =>
        exact foldl_count_eq intent lines (h lines (List.mem_cons_self _ _)) lr
    rw [ih (fun lines hm => h lines (List.mem_cons_of_mem f hm)), hstep]

/-- File-set version of `foldl_vm_fields`. -/
theorem files_vm_fields (intent : IntentInfo) (files : List (Option (List String)))
    (h : ∀ lines, some lines ∈ files → ∀ line ∈ lines, vmLineMatch line.data = false) :
    ∀ lr : LogResults,
      (files.foldl (processFile intent) lr).vm_startups = lr.vm_startups ∧
      (files.foldl (processFile intent) lr).avg_startup_time = lr.avg_startup_time := by
  induction files with
  | nil => intro lr; exact ⟨rfl, rfl⟩
  | cons f fs ih =>
    intro lr
    rw [List.foldl_cons]
    have hstep : (processFile intent lr f).vm_startups = lr.vm_startups ∧
        (processFile intent lr f).avg_startup_time = lr.avg_startup_time := by
      cases f with
      | none => exact ⟨rfl, rfl⟩
      | some lines =>
        exact foldl_vm_fields intent lines (h lines (List.mem_cons_self _ _)) lr
    have htail := ih (fun lines hm => h lines (List.mem_cons_of_mem f hm)) (processFile intent lr f)
    exact ⟨htail.1.trans hstep.1, htail.2.trans hstep.2⟩

end IExplain

namespace IExplain

unseal Rat.mul Rat.add Rat.sub Rat.inv in
theorem pyRound2_zero : pyRound2 0 = 0 := by decide

/-- `analyze_logs` only rounds averages after the fold: the counters agree
with the fold's counters. -/
theorem analyze_logs_counters (files : List (Option (List String))) (intent : IntentInfo) :
    (analyze_logs files intent).calls_over_threshold =
      (files.foldl (processFile intent) initLogResults).calls_over_threshold ∧
    (analyze_logs files intent).api_calls =
      (files.foldl (processFile intent) initLogResults).api_calls ∧
    (analyze_logs files intent).vm_startups =
      (files.foldl (processFile intent) initLogResults).vm_startups :=
  ⟨rfl, rfl, rfl⟩

/-! ## Claim C2 -/

set_option maxRecDepth 10000 in
unseal Rat.mul Rat.add Rat.sub Rat.inv in
/-- C2 counterexample: for the VM-startup intent (threshold 30 s) and a log
set with no `spawned in` line, the analyzer finds no startup evidence and
`determine_outcome` classifies the run as `Success`, not `Unknown` as the
claim states. -/
theorem c2_counterexample :
    (analyze_logs scenarioBFiles vmStartupIntent).vm_startups = 0 ∧
    determine_outcome vmStartupIntent (analyze_logs scenarioBFiles vmStartupIntent) =
      "Success" ∧
    determine_outcome vmStartupIntent (analyze_logs scenarioBFiles vmStartupIntent) ≠
      "Unknown" := by
  refine ⟨by decide, by decide, by decide⟩

/-- C2 (amended): `determine_outcome` returns `Unknown` exactly when the
threshold unit is neither `ms` nor `s` — independently of the evidence; and
for a second-unit intent with a nonnegative threshold whose logs contain no
`Instance spawned in` line, the startup counter and average stay zero and the
outcome is `Success`. -/
theorem c2_outcome_characterization :
    (∀ (intent : IntentInfo) (lr : LogResults),
      determine_outcome intent lr = "Unknown" ↔
        intent.threshold_unit ≠ "ms" ∧ intent.threshold_unit ≠ "s") ∧
    (∀ (intent : IntentInfo) (files : List (Option (List String))),
      intent.threshold_unit = "s" → 0 ≤ intent.threshold →
      (∀ lines, some lines ∈ files → ∀ line ∈ lines, vmLineMatch line.data = false) →
      (analyze_logs files intent).vm_startups = 0 ∧
      (analyze_logs files intent).avg_startup_time = 0 ∧
      determine_outcome intent (analyze_logs files intent) = "Success") := by
  constructor
  · intro intent lr
    unfold determine_outcome
    split_ifs <;> simp_all
  · intro intent files hs h0 hnone
    have hfold := files_vm_fields intent files hnone initLogResults
    have hvm : (analyze_logs files intent).vm_startups = 0 := hfold.1
    have havg : (analyze_logs files intent).avg_startup_time = 0 := by
      show pyRound2 (files.foldl (processFile intent) initLogResults).avg_startup_time = 0
      rw [hfold.2]
      exact pyRound2_zero
    refine ⟨hvm, havg, ?_⟩
    unfold determine_outcome
    rw [hs, if_neg (by decide : ¬("s" : String) = "ms"),
      if_pos (rfl : ("s" : String) = "s"),
      if_pos (havg ▸ (by exact_mod_cast h0 : (0 : ℚ) ≤ (intent.threshold : ℚ)))]

/-- Witness for `c2_outcome_characterization`: the `kg`-unit intent yields
`Unknown`, and the VM-startup intent on evidence-free logs yields `Success`
with zero startups. -/
theorem c2_witness :
    determine_outcome unknownUnitIntent initLogResults = "Unknown" ∧
    ((analyze_logs scenarioBFiles vmStartupIntent).vm_startups = 0 ∧
     (analyze_logs scenarioBFiles vmStartupIntent).avg_startup_time = 0 ∧
     determine_outcome vmStartupIntent (analyze_logs scenarioBFiles vmStartupIntent) =
       "Success") := by
  constructor
  · exact (c2_outcome_characterization.1 unknownUnitIntent initLogResults).mpr (by decide)
  · refine c2_outcome_characterization.2 vmStartupIntent scenarioBFiles rfl (by decide) ?_
    intro lines hm
    simp only [scenarioBFiles, List.mem_singleton] at hm
    injection hm with hm
    subst hm
    intro line hline
    rw [List.mem_singleton] at hline
    subst hline
    decide

/-! ## Claim C4 -/

set_option maxRecDepth 10000 in
unseal Rat.mul Rat.add Rat.sub Rat.inv in
/-- C4 counterexample: in scenario A (threshold 250 ms, 10 matching lines, 2
at 300 ms) the analyzer records 2 violations but classifies the outcome as
`Failure`, not `Partial Success`: the 20% ratio is not strictly below the
`0.2` bound used in `determine_outcome`. -/
theorem c4_counterexample :
    (analyze_logs scenarioAFiles apiLatencyIntent).api_calls = 10 ∧
    (analyze_logs scenarioAFiles apiLatencyIntent).calls_over_threshold = 2 ∧
    determine_outcome apiLatencyIntent (analyze_logs scenarioAFiles apiLatencyIntent) ≠
      "Partial Success" := by
  refine ⟨by decide, by decide, by decide⟩

set_option maxRecDepth 10000 in
unseal Rat.mul Rat.add Rat.sub Rat.inv in
/-- C4 (amended): in scenario A the analyzer records 2 violations among 10
matching calls and classifies the outcome as `Failure`, because the 20%
violation ratio is not strictly below the fixed `0.2` tolerance. -/
theorem c4_boundary_is_failure :
    (analyze_logs scenarioAFiles apiLatencyIntent).api_calls = 10 ∧
    (analyze_logs scenarioAFiles apiLatencyIntent).calls_over_threshold = 2 ∧
    determine_outcome apiLatencyIntent (analyze_logs scenarioAFiles apiLatencyIntent) =
      "Failure" := by
  refine ⟨by decide, by decide, by decide⟩

/-! ## Claim C6 -/

/-- C6: a measured value exactly equal to the threshold is compliant: a
matched API line whose extracted latency equals the threshold never
increments the violation counter, and a second-unit run whose average
startup time equals the threshold is classified `Success` with a zero
threshold-violation rate. -/
theorem c6_threshold_boundary_compliant :
    (∀ (intent : IntentInfo) (lr : LogResults) (line : String),
      extractLatencyMs line.data = some ((intent.threshold : ℚ)) →
      (processLine intent lr line).calls_over_threshold = lr.calls_over_threshold) ∧
    (∀ (intent : IntentInfo) (lr : LogResults),
      intent.threshold_unit = "s" →
      lr.avg_startup_time = (intent.threshold : ℚ) →
      determine_outcome intent lr = "Success" ∧
      vmThresholdViolationRate intent lr = 0) := by
  constructor
  · intro intent lr line hl
    apply processLine_count_eq
    intro lat hlat
    rw [hl] at hlat
    injection hlat with hlat
    rintro ⟨-, hlt⟩
    rw [hlat] at hlt
    exact lt_irrefl _ hlt
  · intro intent lr hs havg
    constructor
    · unfold determine_outcome
      rw [hs, if_neg (by decide : ¬("s" : String) = "ms"),
        if_pos (rfl : ("s" : String) = "s"), if_pos (le_of_eq havg)]
    · unfold vmThresholdViolationRate
      rw [havg, if_neg (lt_irrefl _), zero_div, zero_mul, pyRound2_zero]

set_option maxRecDepth 10000 in
unseal Rat.mul Rat.add Rat.sub Rat.inv in
/-- Witness for `c6_threshold_boundary_compliant`: a line at exactly 250 ms
against the 250 ms intent, and an average of exactly 30 s against the 30 s
intent. -/
theorem c6_witness :
    extractLatencyMs boundaryApiLine.data = some ((apiLatencyIntent.threshold : ℚ)) ∧
    (processLine apiLatencyIntent initLogResults boundaryApiLine).calls_over_threshold =
      initLogResults.calls_over_threshold ∧
    vmBoundaryResults.avg_startup_time = (vmStartupIntent.threshold : ℚ) ∧
    determine_outcome vmStartupIntent vmBoundaryResults = "Success" ∧
    vmThresholdViolationRate vmStartupIntent vmBoundaryResults = 0 := by
  have h1 : extractLatencyMs boundaryApiLine.data =
      some ((apiLatencyIntent.threshold : ℚ)) := by decide
  have h2 : vmBoundaryResults.avg_startup_time = (vmStartupIntent.threshold : ℚ) := by decide
  have h3 := c6_threshold_boundary_compliant.1 apiLatencyIntent initLogResults boundaryApiLine h1
  have h4 := c6_threshold_boundary_compliant.2 vmStartupIntent vmBoundaryResults rfl h2
  exact ⟨h1, h3, h2, h4.1, h4.2⟩

/-! ## Claim C10 -/

/-- C10: when no numeric threshold was recovered (`threshold = 0`) for an
`ms`-unit intent, no log line is ever counted as a violation and the outcome
is always `Success`. -/
theorem c10_zero_threshold_always_success (files : List (Option (List String)))
    (intent : IntentInfo) (h0 : intent.threshold = 0)
    (hms : intent.threshold_unit = "ms") :
    (analyze_logs files intent).calls_over_threshold = 0 ∧
    determine_outcome intent (analyze_logs files intent) = "Success" := by
  have hc : (analyze_logs files intent).calls_over_threshold = 0 := by
    show (files.foldl (processFile intent) initLogResults).calls_over_threshold = 0
    have hnone : ∀ lines, some lines ∈ files → ∀ line ∈ lines, ∀ lat,
        extractLatencyMs line.data = some lat →
        ¬(0 < intent.threshold ∧ (intent.threshold : ℚ) < lat) := by
      intro lines _ line _ lat _
      rw [h0]
      rintro ⟨h1, -⟩
      exact lt_irrefl 0 h1
    rw [files_count_eq intent files hnone initLogResults]
    rfl
  refine ⟨hc, ?_⟩
  unfold determine_outcome
  rw [hms, if_pos (rfl : ("ms" : String) = "ms"), if_pos hc]

set_option maxRecDepth 10000 in
unseal Rat.mul Rat.add Rat.sub Rat.inv in
/-- Witness for `c10_zero_threshold_always_success`: scenario A's log set
(which contains 300 ms lines) against the zero-threshold `ms` intent. -/
theorem c10_witness :
    apiNoThresholdIntent.threshold = 0 ∧
    apiNoThresholdIntent.threshold_unit = "ms" ∧
    (analyze_logs scenarioAFiles apiNoThresholdIntent).calls_over_threshold = 0 ∧
    determine_outcome apiNoThresholdIntent (analyze_logs scenarioAFiles apiNoThresholdIntent) =
      "Success" := by
  have h := c10_zero_threshold_always_success scenarioAFiles apiNoThresholdIntent rfl rfl
  exact ⟨rfl, rfl, h.1, h.2⟩

end IExplain

namespace IExplain

/-! ## Claim C9 -/

/-- C9 counterexample: a non-empty document in which no triple is recognized
(`"hello"`) does not yield an extraction error — `parse_tmf_intent` returns a
successful result with the fixed placeholder summary. -/
theorem c9_counterexample :
    parse_tmf_intent "hello" = .ok [] "Intent with no descriptions found" "hello" ∧
    ∀ m r, parse_tmf_intent "hello" ≠ .err m r := by
  have h : parse_tmf_intent "hello" =
      .ok [] "Intent with no descriptions found" "hello" := by decide
  refine ⟨h, fun m r hc => ?_⟩
  rw [h] at hc
  exact TmfResult.noConfusion hc

/-- C9 (amended): the summary is taken from the first description whose type
is `Intent` or `DeliveryExpectation` when one exists, else from the first
description in document order; an error is returned only for empty
(whitespace-only) input, and a non-empty document with no descriptions yields
a successful result with the fixed placeholder summary, not an error. -/
theorem c9_summary_policy :
    (∀ (descs : List TmfDescription) (d : TmfDescription),
      descs.find? (fun x => x.type = "Intent" || x.type = "DeliveryExpectation") = some d →
      tmfSummary descs = d.type ++ ": " ++ d.description) ∧
    (∀ (d : TmfDescription) (rest : List TmfDescription),
      (d :: rest).find? (fun x => x.type = "Intent" || x.type = "DeliveryExpectation") = none →
      tmfSummary (d :: rest) = d.type ++ ": " ++ d.description) ∧
    (∀ doc : String, (pyStrip doc.data).isEmpty = true →
      parse_tmf_intent doc = .err "Failed to parse intent: Empty input" "") ∧
    (∀ doc : String, (pyStrip doc.data).isEmpty = false →
      tmfDescriptions doc = [] →
      parse_tmf_intent doc = .ok [] "Intent with no descriptions found" doc) := by
  refine ⟨?_, ?_, ?_, ?_⟩
  · intro descs d h
    cases descs with
    | nil => simp [List.find?] at h
    | cons hd tl =>
      simp only [tmfSummary]
      rw [h]
  · intro d rest h
    simp only [tmfSummary]
    rw [h]
  · intro doc h
    simp [parse_tmf_intent, h]
  · intro doc h1 h2
    simp [parse_tmf_intent, h1, h2, tmfSummary]

/-- Witness for `c9_summary_policy` at concrete inputs: a list with an
`Intent` entry in second position, a `Condition`-only list, the empty
document, and the document `"hello"`. -/
theorem c9_witness :
    tmfSummary [⟨"s1", "Condition", "c"⟩, ⟨"s2", "Intent", "i"⟩] = "Intent: i" ∧
    tmfSummary [⟨"s1", "Condition", "c"⟩] = "Condition: c" ∧
    parse_tmf_intent "" = .err "Failed to parse intent: Empty input" "" ∧
    parse_tmf_intent "hello" = .ok [] "Intent with no descriptions found" "hello" := by
  refine ⟨c9_summary_policy.1 _ ⟨"s2", "Intent", "i"⟩ (by decide),
    c9_summary_policy.2.1 ⟨"s1", "Condition", "c"⟩ [] (by decide),
    c9_summary_policy.2.2.1 "" (by decide),
    c9_summary_policy.2.2.2 "hello" (by decide) (by decide)⟩

end IExplain

namespace IExplain

/-! ## Helper lemmas about records and the normalization paths -/

theorem getKey_setKey_self (o : JsonObj) (k : String) (v : PyJson) :
    getKey (setKey o k v) k = some v := by
  induction o with
  | nil => simp [setKey, getKey]
  | cons p rest ih =>
    by_cases h : p.1 = k
    · simp [setKey, getKey, h]
    · simp [setKey, getKey, h, ih]

theorem getKey_setKey_ne (o : JsonObj) (k : String) (v : PyJson) (k' : String)
    (h : k' ≠ k) : getKey (setKey o k v) k' = getKey o k' := by
  induction o with
  | nil => simp [setKey, getKey, (Ne.symm h : k ≠ k')]
  | cons p rest ih =>
    obtain ⟨pk, pv⟩ := p
    by_cases hp : pk = k
    · subst hp
      simp [setKey, getKey, (Ne.symm h : pk ≠ k')]
    · simp [setKey, getKey, hp, ih]

theorem hasKey_setKey_self (o : JsonObj) (k : String) (v : PyJson) :
    hasKey (setKey o k v) k = true := by
  simp [hasKey, getKey_setKey_self]

theorem hasKey_setKey_of_hasKey (o : JsonObj) (k : String) (v : PyJson) (k' : String)
    (h : hasKey o k' = true) : hasKey (setKey o k v) k' = true := by
  by_cases hk : k' = k
  · subst hk; exact hasKey_setKey_self o k' v
  · simpa [hasKey, getKey_setKey_ne o k v k' hk] using h

theorem recIntentField_setKey_ne (e : JsonObj) (k : String) (v : PyJson) (f : String)
    (h : k ≠ "intent") : recIntentField (setKey e k v) f = recIntentField e f := by
  simp [recIntentField, getKey_setKey_ne e k v "intent" (fun hh => h hh.symm)]

theorem recIntentField_setIntentDescription_id (e : JsonObj) (d : String) :
    recIntentField (setIntentDescription e d) "id" = recIntentField e "id" := by
  unfold setIntentDescription
  split
  next io heq =>
    simp [recIntentField, getKey_setKey_self, heq,
      getKey_setKey_ne io "description" (PyJson.str d) "id" (by decide)]
  next => rfl

theorem hasKey_setIntentDescription (e : JsonObj) (d : String) (k : String)
    (h : hasKey e k = true) : hasKey (setIntentDescription e d) k = true := by
  unfold setIntentDescription
  split
  next io heq => exact hasKey_setKey_of_hasKey _ _ _ _ h
  next => exact h

/-! ### The fallback message loop preserves the record's shape -/

theorem applyIntentSummary_id (e : JsonObj) (c : List Char) :
    recIntentField (applyIntentSummary e c) "id" = recIntentField e "id" := by
  unfold applyIntentSummary
  split
  · exact recIntentField_setIntentDescription_id _ _
  · rfl

theorem applyOutcome_intent (e : JsonObj) (c : List Char) (f : String) :
    recIntentField (applyOutcome e c) f = recIntentField e f := by
  unfold applyOutcome
  split
  · exact recIntentField_setKey_ne _ _ _ _ (by decide)
  · rfl

theorem applyOutcomeExplanation_intent (e : JsonObj) (c : List Char) (f : String) :
    recIntentField (applyOutcomeExplanation e c) f = recIntentField e f := by
  unfold applyOutcomeExplanation
  split
  · exact recIntentField_setKey_ne _ _ _ _ (by decide)
  · rfl

theorem applyRecommendations_intent (e : JsonObj) (c : List Char) (f : String) :
    recIntentField (applyRecommendations e c) f = recIntentField e f := by
  unfold applyRecommendations
  dsimp only
  split
  · rfl
  · exact recIntentField_setKey_ne _ _ _ _ (by decide)

theorem applyFactors_intent (e : JsonObj) (c : List Char) (f : String) :
    recIntentField (applyFactors e c) f = recIntentField e f := by
  unfold applyFactors
  dsimp only
  split
  · rfl
  · exact recIntentField_setKey_ne _ _ _ _ (by decide)

theorem applyMsg_id (e : JsonObj) (m : ChatMsg) :
    recIntentField (applyMsg e m) "id" = recIntentField e "id" := by
  unfold applyMsg
  split
  · rw [applyFactors_intent, applyRecommendations_intent, applyOutcomeExplanation_intent,
      applyOutcome_intent, applyIntentSummary_id]
  · rfl

theorem applyIntentSummary_hasKey (e : JsonObj) (c : List Char) (k : String)
    (h : hasKey e k = true) : hasKey (applyIntentSummary e c) k = true := by
  unfold applyIntentSummary
  split
  · exact hasKey_setIntentDescription _ _ _ h
  · exact h

theorem applyOutcome_hasKey (e : JsonObj) (c : List Char) (k : String)
    (h : hasKey e k = true) : hasKey (applyOutcome e c) k = true := by
  unfold applyOutcome
  split
  · exact hasKey_setKey_of_hasKey _ _ _ _ h
  · exact h

theorem applyOutcomeExplanation_hasKey (e : JsonObj) (c : List Char) (k : String)
    (h : hasKey e k = true) : hasKey (applyOutcomeExplanation e c) k = true := by
  unfold applyOutcomeExplanation
  split
  · exact hasKey_setKey_of_hasKey _ _ _ _ h
  · exact h

theorem applyRecommendations_hasKey (e : JsonObj) (c : List Char) (k : String)
    (h : hasKey e k = true) : hasKey (applyRecommendations e c) k = true := by
  unfold applyRecommendations
  dsimp only
  split
  · exact h
  · exact hasKey_setKey_of_hasKey _ _ _ _ h

theorem applyFactors_hasKey (e : JsonObj) (c : List Char) (k : String)
    (h : hasKey e k = true) : hasKey (applyFactors e c) k = true := by
  unfold applyFactors
  dsimp only
  split
  · exact h
  · exact hasKey_setKey_of_hasKey _ _ _ _ h

theorem applyMsg_hasKey (e : JsonObj) (m : ChatMsg) (k : String)
    (h : hasKey e k = true) : hasKey (applyMsg e m) k = true := by
  unfold applyMsg
  split
  · exact applyFactors_hasKey _ _ _ (applyRecommendations_hasKey _ _ _
      (applyOutcomeExplanation_hasKey _ _ _ (applyOutcome_hasKey _ _ _
        (applyIntentSummary_hasKey _ _ _ h))))
  · exact h

theorem applyMsg_no_match (e : JsonObj) (m : ChatMsg) (h : msgMatches m = false) :
    applyMsg e m = e := by
  unfold applyMsg
  simp [h]

theorem foldl_applyMsg_hasKey (msgs : List ChatMsg) (k : String) :
    ∀ e : JsonObj, hasKey e k = true → hasKey (msgs.foldl applyMsg e) k = true := by
  induction msgs with
  | nil => intro e h; exact h
  | cons m ms ih =>
    intro e h
    rw [List.foldl_cons]
    exact ih _ (applyMsg_hasKey e m k h)

theorem foldl_applyMsg_id (msgs : List ChatMsg) :
    ∀ e : JsonObj, recIntentField (msgs.foldl applyMsg e) "id" = recIntentField e "id" := by
  induction msgs with
  | nil => intro e; rfl
  | cons m ms ih =>
    intro e
    rw [List.foldl_cons, ih, applyMsg_id]

theorem foldl_applyMsg_no_match (msgs : List ChatMsg)
    (h : ∀ m ∈ msgs, msgMatches m = false) :
    ∀ e : JsonObj, msgs.foldl applyMsg e = e := by
  induction msgs with
  | nil => intro e; rfl
  | cons m ms ih =>
    intro e
    rw [List.foldl_cons, applyMsg_no_match e m (h m (List.mem_cons_self m ms)),
      ih (fun x hx => h x (List.mem_cons_of_mem m hx))]

/-- Everything `fencedAssemble` guarantees on success: the canonical intent
fields and the four keys it sets itself. -/
theorem fencedAssemble_ok_spec (fields : JsonObj) (nl st iid idesc now : String)
    (rec : JsonObj) (w : List String)
    (h : fencedAssemble fields nl st iid idesc now = .ok (rec, w)) :
    recIntentField rec "id" = some (.str iid) ∧
    recIntentField rec "description" = some (.str idesc) ∧
    hasKey rec "timestamp" = true ∧
    hasKey rec "intent" = true ∧
    hasKey rec "natural_language_intent" = true ∧
    hasKey rec "structured_intent" = true := by
  unfold fencedAssemble at h
  dsimp only at h
  split at h
  next io heq =>
    rw [Except.ok.injEq, Prod.mk.injEq] at h
    obtain ⟨hrec, -⟩ := h
    subst hrec
    refine ⟨?_, ?_, ?_, ?_, ?_, ?_⟩
    · simp [recIntentField, getKey_setKey_ne _ "timestamp" _ "intent" (by decide),
        getKey_setKey_self, getKey_setKey_ne _ "description" _ "id" (by decide)]
    · simp [recIntentField, getKey_setKey_ne _ "timestamp" _ "intent" (by decide),
        getKey_setKey_self]
    · exact hasKey_setKey_self _ _ _
    · exact hasKey_setKey_of_hasKey _ _ _ _ (hasKey_setKey_self _ _ _)
    · refine hasKey_setKey_of_hasKey _ _ _ _ (hasKey_setKey_of_hasKey _ _ _ _ ?_)
      split
      · exact hasKey_setKey_of_hasKey _ _ _ _ (hasKey_setKey_self _ _ _)
      · exact hasKey_setKey_of_hasKey _ _ _ _
          (hasKey_setKey_of_hasKey _ _ _ _ (hasKey_setKey_self _ _ _))
    · refine hasKey_setKey_of_hasKey _ _ _ _ (hasKey_setKey_of_hasKey _ _ _ _ ?_)
      split
      · exact hasKey_setKey_self _ _ _
      · exact hasKey_setKey_of_hasKey _ _ _ _ (hasKey_setKey_self _ _ _)
  next => exact absurd h (by simp)
  next => exact absurd h (by simp)

end IExplain

namespace IExplain

/-! ## Claim C1 -/

/-- C1 counterexample: for a raw result with two fenced blocks of different
content, the record's outcome comes from the FIRST block (`Failure`), not
the second (`Success`): the source indexes `json_matches[0]`. -/
theorem c1_counterexample :
    (extractOk? (extractExplanationFromResult twoBlockText [] "n" "s" "I1" "D" "T")).bind
        (fun r => getStrKey r "outcome") = some "Failure" ∧
    (extractOk? (extractExplanationFromResult twoBlockText [] "n" "s" "I1" "D" "T")).bind
        (fun r => getStrKey r "outcome") ≠ some "Success" := by
  refine ⟨by decide, by decide⟩

/-- C1 (amended): when the raw result contains one or more fenced `json`
blocks, normalization parses the FIRST block — the result depends only on
the head of the block list, and any later blocks are ignored. -/
theorem c1_first_block_used (resultText : String) (b : String) (bs : List String)
    (chatHistory : List ChatMsg) (nl st iid idesc now : String)
    (h : findJsonBlocks resultText = b :: bs) :
    extractExplanationFromResult resultText chatHistory nl st iid idesc now =
      firstBlockResult b chatHistory nl st iid idesc now := by
  unfold extractExplanationFromResult
  rw [h]

/-- Witness for `c1_first_block_used`: the two-block raw result of scenario
C. -/
theorem c1_witness :
    findJsonBlocks twoBlockText = [blockFailure, blockSuccess] ∧
    blockFailure ≠ blockSuccess ∧
    extractExplanationFromResult twoBlockText [] "n" "s" "I1" "D" "T" =
      firstBlockResult blockFailure [] "n" "s" "I1" "D" "T" := by
  have h : findJsonBlocks twoBlockText = [blockFailure, blockSuccess] := by decide
  exact ⟨h, by decide,
    c1_first_block_used twoBlockText blockFailure [blockSuccess] [] "n" "s" "I1" "D" "T" h⟩

/-! ## Claim C3 -/

/-- C3 counterexample: the persisted record can be partial: with the fenced
block `\x7b\x7d` it lacks the schema key `outcome`, and even the fallback
placeholder record lacks the schema key `system_interpretation`. -/
theorem c3_counterexample :
    (extractOk? (extractExplanationFromResult emptyObjText [] "n" "s" "I1" "D" "T")).map
        (fun r => hasKey (explainPersistedRecord r .null .null) "outcome") = some false ∧
    hasKey (explainPersistedRecord (fallbackExtract [] "n" "s" "I1" "D" "T") .null .null)
        "system_interpretation" = false := by
  refine ⟨by decide, by decide⟩

/-- C3 (amended): the fallback path always produces the seven keys
`timestamp`, `intent`, `outcome`, `outcome_explanation`, `analysis`,
`recommendations`, `influencing_factors` (but never guarantees
`system_interpretation` or `key_actions`); the fenced path guarantees only
`timestamp`, `intent`, `natural_language_intent` and `structured_intent`
beyond what the parsed block supplies; attaching session metadata and the
conversation preserves every present key. -/
theorem c3_key_presence :
    (∀ (chatHistory : List ChatMsg) (nl st iid idesc now : String) (k : String),
      k ∈ ["timestamp", "intent", "outcome", "outcome_explanation", "analysis",
           "recommendations", "influencing_factors"] →
      hasKey (fallbackExtract chatHistory nl st iid idesc now) k = true) ∧
    (∀ (fields : JsonObj) (nl st iid idesc now : String) (rec : JsonObj) (w : List String),
      fencedAssemble fields nl st iid idesc now = .ok (rec, w) →
      hasKey rec "timestamp" = true ∧ hasKey rec "intent" = true ∧
      hasKey rec "natural_language_intent" = true ∧ hasKey rec "structured_intent" = true) ∧
    (∀ (rec : JsonObj) (meta conv : PyJson) (k : String), hasKey rec k = true →
      hasKey (explainPersistedRecord rec meta conv) k = true) := by
  refine ⟨?_, ?_, ?_⟩
  · intro ch nl st iid idesc now k hk
    unfold fallbackExtract
    apply foldl_applyMsg_hasKey
    fin_cases hk <;> rfl
  · intro fields nl st iid idesc now rec w h
    have hs := fencedAssemble_ok_spec fields nl st iid idesc now rec w h
    exact ⟨hs.2.2.1, hs.2.2.2.1, hs.2.2.2.2.1, hs.2.2.2.2.2⟩
  · intro rec meta conv k h
    exact hasKey_setKey_of_hasKey _ _ _ _ (hasKey_setKey_of_hasKey _ _ _ _ h)

/-- Witness for `c3_key_presence`: the fallback record over one matching
message, the fenced record of the empty dict, and the persisted form. -/
theorem c3_witness :
    hasKey (fallbackExtract [hackMsg] "n" "s" "I1" "D" "T") "outcome" = true ∧
    fencedAssemble [] "n" "s" "I1" "D" "T" = .ok (c3FencedRec, mismatchWarnings) ∧
    hasKey c3FencedRec "timestamp" = true ∧
    hasKey c3FencedRec "intent" = true ∧
    hasKey (explainPersistedRecord c3FencedRec .null .null) "timestamp" = true := by
  have hf : fencedAssemble [] "n" "s" "I1" "D" "T" = .ok (c3FencedRec, mismatchWarnings) := rfl
  have h2 := c3_key_presence.2.1 [] "n" "s" "I1" "D" "T" c3FencedRec mismatchWarnings hf
  exact ⟨c3_key_presence.1 [hackMsg] "n" "s" "I1" "D" "T" "outcome" (by decide), hf,
    h2.1, h2.2.1, c3_key_presence.2.2 c3FencedRec .null .null "timestamp" h2.1⟩

/-! ## Claim C7 -/

/-- C7 counterexample: a fenced block holding a truncated `\x` escape makes
the unescaping step fail with `UnicodeDecodeError`, which the source's
`except json.JSONDecodeError` does not catch — normalization raises instead
of returning a record. -/
theorem c7_counterexample :
    extractErr? (extractExplanationFromResult badEscapeText [] "n" "s" "I1" "D" "T") =
      some .unicodeDecodeError ∧
    (extractOk? (extractExplanationFromResult badEscapeText [] "n" "s" "I1" "D" "T")).isNone =
      true := by
  refine ⟨by decide, by decide⟩

/-- C7 (amended): when no fenced block exists, or the first block fails with
a JSON decode error, and no transcript message passes the fallback filter,
normalization returns exactly the fixed placeholder record — outcome
`Unknown`, the single `Log analysis incomplete` factor, and one generic
recommendation; only non-JSON-decode exceptions (unescape errors, non-dict
payloads) escape. -/
theorem c7_placeholder_on_no_data (resultText : String) (chatHistory : List ChatMsg)
    (nl st iid idesc now : String)
    (hblocks : findJsonBlocks resultText = [] ∨
      ∃ b bs, findJsonBlocks resultText = b :: bs ∧
        parse_escaped_json b = .error .jsonDecodeError)
    (hmsgs : ∀ m ∈ chatHistory, msgMatches m = false) :
    extractExplanationFromResult resultText chatHistory nl st iid idesc now =
      .ok (defaultExplanation nl st iid idesc now, []) ∧
    getStrKey (defaultExplanation nl st iid idesc now) "outcome" = some "Unknown" ∧
    getKey (defaultExplanation nl st iid idesc now) "influencing_factors" =
      some (.arr [.str "Log analysis incomplete"]) ∧
    getKey (defaultExplanation nl st iid idesc now) "recommendations" =
      some (.arr [.obj [("action", .str "Improve system monitoring"),
        ("reason", .str "Could not determine specific recommendations from logs")]]) := by
  have hfb : fallbackExtract chatHistory nl st iid idesc now =
      defaultExplanation nl st iid idesc now := by
    unfold fallbackExtract
    exact foldl_applyMsg_no_match _ (fun m hm => hmsgs m (List.mem_reverse.mp hm)) _
  refine ⟨?_, rfl, rfl, rfl⟩
  rcases hblocks with h | ⟨b, bs, hb, hp⟩
  · simp only [extractExplanationFromResult, h, hfb]
  · simp only [extractExplanationFromResult, hb, firstBlockResult, hp, hfb]

/-- Witness for `c7_placeholder_on_no_data`: a block-free raw result and a
transcript containing only a rejected message. -/
theorem c7_witness :
    findJsonBlocks noBlockText = [] ∧
    msgMatches userMsg = false ∧
    extractExplanationFromResult noBlockText [userMsg] "n" "s" "I1" "D" "T" =
      .ok (defaultExplanation "n" "s" "I1" "D" "T", []) := by
  have h1 : findJsonBlocks noBlockText = [] := by decide
  have h2 : msgMatches userMsg = false := by decide
  have hm : ∀ m ∈ [userMsg], msgMatches m = false := by
    intro m hmem
    rw [List.mem_singleton] at hmem
    subst hmem
    exact h2
  exact ⟨h1, h2,
    (c7_placeholder_on_no_data noBlockText [userMsg] "n" "s" "I1" "D" "T" (Or.inl h1) hm).1⟩

/-! ## Claim C8 -/

/-- C8 counterexample: on the regex fallback path an extracted
`Intent Summary` overwrites the canonical description and nothing restores
it — with canonical description `Canonical`, the final record carries
`Hacked`. -/
theorem c8_counterexample :
    (extractOk? (extractExplanationFromResult noBlockText [hackMsg]
        "n" "s" "I1" "Canonical" "T")).map (fun r => recIntentStr r "description") =
      some (some "Hacked") ∧
    (extractOk? (extractExplanationFromResult noBlockText [hackMsg]
        "n" "s" "I1" "Canonical" "T")).map (fun r => recIntentStr r "description") ≠
      some (some "Canonical") := by
  refine ⟨by decide, by decide⟩

/-- C8 (amended): on the fenced-block path the canonical id and description
do overwrite whatever the parsed block held, with mismatches surfacing as
printed warnings rather than errors; on the regex fallback path only the id
is guaranteed canonical — the description starts canonical but an extracted
Intent Summary may overwrite it. -/
theorem c8_canonical_fields :
    (∀ (fields : JsonObj) (nl st iid idesc now : String) (rec : JsonObj) (w : List String),
      fencedAssemble fields nl st iid idesc now = .ok (rec, w) →
      recIntentField rec "id" = some (.str iid) ∧
      recIntentField rec "description" = some (.str idesc)) ∧
    (∀ (chatHistory : List ChatMsg) (nl st iid idesc now : String),
      recIntentField (fallbackExtract chatHistory nl st iid idesc now) "id" =
        some (.str iid)) := by
  constructor
  · intro fields nl st iid idesc now rec w h
    have hs := fencedAssemble_ok_spec fields nl st iid idesc now rec w h
    exact ⟨hs.1, hs.2.1⟩
  · intro ch nl st iid idesc now
    unfold fallbackExtract
    rw [foldl_applyMsg_id]
    rfl

/-- Witness for `c8_canonical_fields`: a parsed block with a wrong id (both
warnings fire, the result is still a success with canonical fields), and the
fallback path over the hostile message keeps the canonical id. -/
theorem c8_witness :
    fencedAssemble c8WrongFields "n" "s" "I1" "Canonical" "T" =
      .ok (c8FencedRec, mismatchWarnings) ∧
    recIntentField c8FencedRec "id" = some (.str "I1") ∧
    recIntentField c8FencedRec "description" = some (.str "Canonical") ∧
    recIntentField (fallbackExtract [hackMsg] "n" "s" "I9" "D" "T") "id" =
      some (.str "I9") := by
  have hf : fencedAssemble c8WrongFields "n" "s" "I1" "Canonical" "T" =
      .ok (c8FencedRec, mismatchWarnings) := rfl
  have h := c8_canonical_fields.1 c8WrongFields "n" "s" "I1" "Canonical" "T"
    c8FencedRec mismatchWarnings hf
  exact ⟨hf, h.1, h.2, c8_canonical_fields.2 [hackMsg] "n" "s" "I9" "D" "T"⟩

end IExplain

namespace IExplain

/-! ## Claim C5 -/

/-- When a required role is absent, `validate_agents` fails with a
missing-role error whose missing list contains that role. -/
theorem validateAgents_missing (w : String) (required agents : List String) (r : String)
    (hreq : r ∈ required) (hc : agents.contains r = false) :
    validateAgents w required agents =
      .error (.missingRole w required (required.filter (fun n => !agents.contains n))) ∧
    r ∈ required.filter (fun n => !agents.contains n) := by
  have hr : r ∈ required.filter (fun n => !agents.contains n) :=
    List.mem_filter.mpr ⟨hreq, by rw [hc]; rfl⟩
  have hne : (required.filter (fun n => !agents.contains n)).isEmpty = false := by
    cases hcase : required.filter (fun n => !agents.contains n) with
    | nil => exact absurd (hcase ▸ hr) (List.not_mem_nil r)
    | cons a as => rfl
  constructor
  · unfold validateAgents
    dsimp only
    rw [if_neg (by rw [hne]; exact Bool.false_ne_true)]
  · exact hr

/-- C5: every strategy invoked with an agent map missing a required role
fails with a missing-role error naming that role, and — since the error
branch returns before any prompt is built or agent invoked — the outcome is
independent of the reasoning oracle and carries no transcript. -/
theorem c5_missing_role_fails_fast {μ : Type} (o o2 : AgentOracle μ) (agents : List String)
    (intent_data : IntentData) (log_files expected_fields : List String) (r : String)
    (hc : agents.contains r = false) :
    (r ∈ sequentialRequiredAgents →
      sequentialExecute o agents intent_data log_files expected_fields =
        .error (.missingRole "SequentialWorkflow" sequentialRequiredAgents
          (sequentialRequiredAgents.filter (fun n => !agents.contains n))) ∧
      r ∈ sequentialRequiredAgents.filter (fun n => !agents.contains n) ∧
      sequentialExecute o agents intent_data log_files expected_fields =
        sequentialExecute o2 agents intent_data log_files expected_fields) ∧
    (r ∈ nestedRequiredAgents →
      nestedExecute o agents intent_data log_files expected_fields =
        .error (.missingRole "NestedWorkflow" nestedRequiredAgents
          (nestedRequiredAgents.filter (fun n => !agents.contains n))) ∧
      r ∈ nestedRequiredAgents.filter (fun n => !agents.contains n) ∧
      nestedExecute o agents intent_data log_files expected_fields =
        nestedExecute o2 agents intent_data log_files expected_fields) ∧
    (r ∈ groupchatRequiredAgents →
      groupchatExecute o agents intent_data log_files expected_fields =
        .error (.missingRole "GroupchatWorkflow" groupchatRequiredAgents
          (groupchatRequiredAgents.filter (fun n => !agents.contains n))) ∧
      r ∈ groupchatRequiredAgents.filter (fun n => !agents.contains n) ∧
      groupchatExecute o agents intent_data log_files expected_fields =
        groupchatExecute o2 agents intent_data log_files expected_fields) := by
  refine ⟨fun hreq => ?_, fun hreq => ?_, fun hreq => ?_⟩
  · obtain ⟨hv, hr⟩ :=
      validateAgents_missing "SequentialWorkflow" sequentialRequiredAgents agents r hreq hc
    refine ⟨?_, hr, ?_⟩
    · unfold sequentialExecute
      rw [hv]
    · unfold sequentialExecute
      rw [hv]
  · obtain ⟨hv, hr⟩ :=
      validateAgents_missing "NestedWorkflow" nestedRequiredAgents agents r hreq hc
    refine ⟨?_, hr, ?_⟩
    · unfold nestedExecute
      rw [hv]
    · unfold nestedExecute
      rw [hv]
  · obtain ⟨hv, hr⟩ :=
      validateAgents_missing "GroupchatWorkflow" groupchatRequiredAgents agents r hreq hc
    refine ⟨?_, hr, ?_⟩
    · unfold groupchatExecute
      rw [hv]
    · unfold groupchatExecute
      rw [hv]

/-- Witness for `c5_missing_role_fails_fast`: the Sequential strategy with a
map missing exactly the log-analysis role (scenario E), plus the other two
strategies with an empty map. -/
theorem c5_witness :
    agentsMissingLogAnalysis.contains "log_analysis_agent" = false ∧
    "log_analysis_agent" ∈ sequentialRequiredAgents ∧
    sequentialExecute zeroOracle agentsMissingLogAnalysis ⟨"ttl", ""⟩ [] [] =
      .error (.missingRole "SequentialWorkflow" sequentialRequiredAgents
        ["log_analysis_agent"]) ∧
    sequentialExecute zeroOracle agentsMissingLogAnalysis ⟨"ttl", ""⟩ [] [] =
      sequentialExecute oneOracle agentsMissingLogAnalysis ⟨"ttl", ""⟩ [] [] ∧
    nestedExecute zeroOracle [] ⟨"ttl", ""⟩ [] [] =
      .error (.missingRole "NestedWorkflow" nestedRequiredAgents nestedRequiredAgents) ∧
    groupchatExecute zeroOracle [] ⟨"ttl", ""⟩ [] [] =
      .error (.missingRole "GroupchatWorkflow" groupchatRequiredAgents
        groupchatRequiredAgents) := by
  have hseq := (c5_missing_role_fails_fast zeroOracle oneOracle agentsMissingLogAnalysis
    ⟨"ttl", ""⟩ [] [] "log_analysis_agent" (by decide)).1 (by decide)
  have hnested := (c5_missing_role_fails_fast zeroOracle oneOracle []
    ⟨"ttl", ""⟩ [] [] "log_analysis_agent" (by decide)).2.1 (by decide)
  have hgc := (c5_missing_role_fails_fast zeroOracle oneOracle []
    ⟨"ttl", ""⟩ [] [] "log_analysis_agent" (by decide)).2.2 (by decide)
  exact ⟨by decide, by decide, hseq.1, hseq.2.2, hnested.1, hgc.1⟩

end IExplain
